import Mathlib

/-!
# Verification of the nucat generative point-cloud animation engine

A shallow embedding, over `ℝ`, of the core algorithms of the repository:

* the manual skinning evaluator (`src/ascii/skinning.js`, `getSkinnedVertexPosition`),
* the adaptive surface sampler (`src/ascii/skinning.js`, `sampleVertices` and
  `sampleSkeletonBones`),
* the per-frame instance position resolution and layered effect displacement
  (`src/ascii/instancedMesh.js`, `updateASCIIPositions` / `applyEffects`),
* the mystique fade state machine (`src/ascii/mystiqueFade.js`),
* the chaos driver (`processChaosMix` / `triggerFibonacciEvent` / `quantumProbability`).

JavaScript numbers are modelled by real numbers; `Math.sin`, `Math.cos` and
`Math.sqrt` by `Real.sin`, `Real.cos`, `Real.sqrt`.  Values that JavaScript would
turn into `NaN`/`undefined` (reading an array at an `undefined` index, accessing a
missing object field) are modelled with `Option`.  `Math.random()` results are
passed in as explicit real-valued inputs.
-/

namespace Nucat

/-- A 3-component vector, mirroring `THREE.Vector3`. -/
@[ext]
structure Vec3 where
  x : ℝ
  y : ℝ
  z : ℝ

namespace Vec3

/-- Component-wise addition (`Vector3.add`). -/
def add (a b : Vec3) : Vec3 := ⟨a.x + b.x, a.y + b.y, a.z + b.z⟩

/-- Component-wise subtraction (`Vector3.subVectors`). -/
def sub (a b : Vec3) : Vec3 := ⟨a.x - b.x, a.y - b.y, a.z - b.z⟩

/-- Scalar multiplication (`Vector3.multiplyScalar`). -/
def smul (s : ℝ) (a : Vec3) : Vec3 := ⟨s * a.x, s * a.y, s * a.z⟩

/-- Cross product (`Vector3.cross`). -/
def cross (a b : Vec3) : Vec3 :=
  ⟨a.y * b.z - a.z * b.y, a.z * b.x - a.x * b.z, a.x * b.y - a.y * b.x⟩

/-- Euclidean length (`Vector3.length`). -/
noncomputable def len (a : Vec3) : ℝ :=
  Real.sqrt (a.x * a.x + a.y * a.y + a.z * a.z)

/-- Linear interpolation (`Vector3.lerpVectors`). -/
def lerp (a b : Vec3) (t : ℝ) : Vec3 :=
  ⟨a.x + (b.x - a.x) * t, a.y + (b.y - a.y) * t, a.z + (b.z - a.z) * t⟩

/-- The zero vector. -/
def zero : Vec3 := ⟨0, 0, 0⟩

end Vec3

/-- A 4×4 matrix in row-major notation, mirroring `THREE.Matrix4`
(`m i j` is the entry in row `i`, column `j` of the usual mathematical layout). -/
structure Mat4 where
  m11 : ℝ
  m12 : ℝ
  m13 : ℝ
  m14 : ℝ
  m21 : ℝ
  m22 : ℝ
  m23 : ℝ
  m24 : ℝ
  m31 : ℝ
  m32 : ℝ
  m33 : ℝ
  m34 : ℝ
  m41 : ℝ
  m42 : ℝ
  m43 : ℝ
  m44 : ℝ

namespace Mat4

/-- The identity matrix. -/
def id : Mat4 := ⟨1,0,0,0, 0,1,0,0, 0,0,1,0, 0,0,0,1⟩

/-- Matrix product (`Matrix4.multiplyMatrices`). -/
def mul (a b : Mat4) : Mat4 :=
  ⟨a.m11*b.m11 + a.m12*b.m21 + a.m13*b.m31 + a.m14*b.m41,
   a.m11*b.m12 + a.m12*b.m22 + a.m13*b.m32 + a.m14*b.m42,
   a.m11*b.m13 + a.m12*b.m23 + a.m13*b.m33 + a.m14*b.m43,
   a.m11*b.m14 + a.m12*b.m24 + a.m13*b.m34 + a.m14*b.m44,
   a.m21*b.m11 + a.m22*b.m21 + a.m23*b.m31 + a.m24*b.m41,
   a.m21*b.m12 + a.m22*b.m22 + a.m23*b.m32 + a.m24*b.m42,
   a.m21*b.m13 + a.m22*b.m23 + a.m23*b.m33 + a.m24*b.m43,
   a.m21*b.m14 + a.m22*b.m24 + a.m23*b.m34 + a.m24*b.m44,
   a.m31*b.m11 + a.m32*b.m21 + a.m33*b.m31 + a.m34*b.m41,
   a.m31*b.m12 + a.m32*b.m22 + a.m33*b.m32 + a.m34*b.m42,
   a.m31*b.m13 + a.m32*b.m23 + a.m33*b.m33 + a.m34*b.m43,
   a.m31*b.m14 + a.m32*b.m24 + a.m33*b.m34 + a.m34*b.m44,
   a.m41*b.m11 + a.m42*b.m21 + a.m43*b.m31 + a.m44*b.m41,
   a.m41*b.m12 + a.m42*b.m22 + a.m43*b.m32 + a.m44*b.m42,
   a.m41*b.m13 + a.m42*b.m23 + a.m43*b.m33 + a.m44*b.m43,
   a.m41*b.m14 + a.m42*b.m24 + a.m43*b.m34 + a.m44*b.m44⟩

end Mat4

/-- `THREE.Vector3.applyMatrix4`: apply a 4×4 matrix to a point with the
perspective divide `w = 1 / (m41 x + m42 y + m43 z + m44)`.  (In Lean, division
by `0` yields `0`; the JavaScript code would produce `Infinity` there, a case
that never arises for the affine transforms used by the engine.) -/
noncomputable def applyMatrix4 (m : Mat4) (v : Vec3) : Vec3 :=
  let w := m.m41 * v.x + m.m42 * v.y + m.m43 * v.z + m.m44
  ⟨(m.m11 * v.x + m.m12 * v.y + m.m13 * v.z + m.m14) / w,
   (m.m21 * v.x + m.m22 * v.y + m.m23 * v.z + m.m24) / w,
   (m.m31 * v.x + m.m32 * v.y + m.m33 * v.z + m.m34) / w⟩

/-- A bone of the skeleton: its name, the index of its parent bone when the
parent exists and is itself a bone (`bone.parent && bone.parent.isBone`,
resolved through `bones.indexOf`), and its current world matrix. -/
structure Bone where
  name : String
  parentIdx : Option ℕ
  matrixWorld : Mat4

/-- `THREE.Skeleton`: the bone list and the parallel inverse bind matrices. -/
structure Skeleton where
  bones : List Bone
  boneInverses : List Mat4

/-- The data of one skinned mesh as consumed by the sampler and the skinning
evaluator: rest-pose vertex positions, the triangle index list (when the
geometry is indexed), per-vertex skin indices and weights (4 influences,
`skinIndex.getX..getW` / `skinWeight.getX..getW`), the skeleton, the bind
matrices and the mesh world matrix.  A mesh without a skeleton is modelled by
an empty bone list (for which bone sampling emits nothing, matching the early
`return` in the source). -/
structure MeshData where
  positions : List Vec3
  index : Option (List ℕ)
  skinIndex : ℕ → Fin 4 → ℕ
  skinWeight : ℕ → Fin 4 → ℝ
  skeleton : Skeleton
  bindMatrix : Mat4
  bindMatrixInverse : Mat4
  matrixWorld : Mat4

namespace MeshData

/-- `positionAttr.getX/getY/getZ` bundled: the rest-pose position of vertex `i`. -/
def getPos (m : MeshData) (i : ℕ) : Vec3 := m.positions.getD i Vec3.zero

/-- The sum of the four skin weights of vertex `i`
(`weights[0] + weights[1] + weights[2] + weights[3]`). -/
def totalWeight (m : MeshData) (i : ℕ) : ℝ :=
  m.skinWeight i ⟨0, by omega⟩ + m.skinWeight i ⟨1, by omega⟩ +
    m.skinWeight i ⟨2, by omega⟩ + m.skinWeight i ⟨3, by omega⟩

end MeshData

/-- The bone transform `bone.matrixWorld * boneInverses[boneIndex]` used in the
skinning loop (looked up with a default that is never reached under the bounds
guard). -/
def boneTransform (sk : Skeleton) (bi : ℕ) : Mat4 :=
  Mat4.mul (sk.bones.getD bi ⟨"", none, Mat4.id⟩).matrixWorld (sk.boneInverses.getD bi Mat4.id)

/-- One iteration of the influence loop of `getSkinnedVertexPosition`
(`skinning.js`, lines 63–90): skip the influence when its weight is zero or its
bone index is out of the skeleton's bounds, otherwise accumulate the
weight-scaled bone-transformed bind-space vertex. -/
noncomputable def skinStep (m : MeshData) (vi : ℕ) (vbind : Vec3) (acc : Vec3)
    (i : Fin 4) : Vec3 :=
  let weight := m.skinWeight vi i
  if weight = 0 then acc
  else
    let boneIndex := m.skinIndex vi i
    if boneIndex < m.skeleton.bones.length then
      Vec3.add acc (Vec3.smul weight (applyMatrix4 (boneTransform m.skeleton boneIndex) vbind))
    else acc

/-- `getSkinnedVertexPosition` (`skinning.js`): the manual replication of GPU
skinning.  If the vertex's total skin weight is zero, the rest-pose vertex is
transformed only by the mesh world matrix; otherwise the vertex is moved to
bind space, each valid nonzero-weight influence accumulates
`weight • (boneWorld * boneInverse) v`, and the result is taken back through
the inverse bind matrix and the mesh world matrix. -/
noncomputable def getSkinnedVertexPosition (m : MeshData) (vi : ℕ) : Vec3 :=
  let vertex := m.getPos vi
  if m.totalWeight vi = 0 then
    applyMatrix4 m.matrixWorld vertex
  else
    let vbind := applyMatrix4 m.bindMatrix vertex
    let acc := ([0, 1, 2, 3] : List (Fin 4)).foldl (skinStep m vi vbind) Vec3.zero
    applyMatrix4 m.matrixWorld (applyMatrix4 m.bindMatrixInverse acc)

/-- A sample descriptor as pushed by the sampler (`sampleVertices` /
`sampleSkeletonBones`): the tagged objects
`{meshIndex, type, ...}` dispatched on by `updateASCIIPositions`. -/
inductive SampleDesc where
  | vertex (meshIndex vertexIndex : ℕ)
  | faceCenter (meshIndex i0 i1 i2 : ℕ)
  | edgePoint (meshIndex a b : ℕ) (t : ℝ)
  | interior (meshIndex i0 i1 i2 : ℕ) (u v w : ℝ)
  | edgeMidpoint (meshIndex a b : ℕ)
  | bonePoint (meshIndex boneIndex parentBoneIndex : ℕ) (t : ℝ)

namespace SampleDesc

/-- `sample.meshIndex`. -/
def meshIndex : SampleDesc → ℕ
  | vertex mi _ => mi
  | faceCenter mi _ _ _ => mi
  | edgePoint mi _ _ _ => mi
  | interior mi _ _ _ _ _ _ => mi
  | edgeMidpoint mi _ _ => mi
  | bonePoint mi _ _ _ => mi

/-- Reading the JavaScript property `sample.vertexIndex`: it is present only on
`vertex` samples; on every other sample object the read yields `undefined`,
modelled by `none`. -/
def vertexIndexOf : SampleDesc → Option ℕ
  | vertex _ i => some i
  | _ => none

end SampleDesc

/-- The base-position dispatch of `updateASCIIPositions`
(`instancedMesh.js`, lines 103–160): `faceCenter` averages three skinned
vertices, `edgePoint` lerps two, `interior` blends three barycentrically,
`edgeMidpoint` averages two, and every *other* sample type falls into the final
`else` branch, which calls `getSkinnedVertexPosition(sample.vertexIndex, ...)`.
For a `bonePoint` sample that property read yields `undefined`, so the buffer
attributes are indexed at `undefined` and no well-defined (non-NaN) position is
produced; this failure is modelled by `none`. -/
noncomputable def resolveBasePosition (meshes : List MeshData) (s : SampleDesc) :
    Option Vec3 :=
  let defaultMesh : MeshData :=
    ⟨[], none, fun _ _ => 0, fun _ _ => 0, ⟨[], []⟩, Mat4.id, Mat4.id, Mat4.id⟩
  let mesh := meshes.getD s.meshIndex defaultMesh
  match s with
  | .faceCenter _ i0 i1 i2 =>
      let p0 := getSkinnedVertexPosition mesh i0
      let p1 := getSkinnedVertexPosition mesh i1
      let p2 := getSkinnedVertexPosition mesh i2
      some ⟨(p0.x + p1.x + p2.x) / 3, (p0.y + p1.y + p2.y) / 3, (p0.z + p1.z + p2.z) / 3⟩
  | .edgePoint _ a b t =>
      let pA := getSkinnedVertexPosition mesh a
      let pB := getSkinnedVertexPosition mesh b
      some (Vec3.lerp pA pB t)
  | .interior _ i0 i1 i2 u v w =>
      let p0 := getSkinnedVertexPosition mesh i0
      let p1 := getSkinnedVertexPosition mesh i1
      let p2 := getSkinnedVertexPosition mesh i2
      some ⟨p0.x * u + p1.x * v + p2.x * w,
            p0.y * u + p1.y * v + p2.y * w,
            p0.z * u + p1.z * v + p2.z * w⟩
  | .edgeMidpoint _ a b =>
      let pA := getSkinnedVertexPosition mesh a
      let pB := getSkinnedVertexPosition mesh b
      some ⟨(pA.x + pB.x) / 2, (pA.y + pB.y) / 2, (pA.z + pB.z) / 2⟩
  | s =>
      (s.vertexIndexOf).map (getSkinnedVertexPosition mesh)

/-- A concrete mesh whose single vertex is at `(1,0,0)`, carries skin weight
`(1,0,0,0)` pointing at bone index `5`, over an empty skeleton — so its one
nonzero-weight influence is out of bounds.  All matrices are the identity. -/
noncomputable def exMeshC5 : MeshData where
  positions := [⟨1, 0, 0⟩]
  index := none
  skinIndex := fun _ _ => 5
  skinWeight := fun _ j => if j.val = 0 then 1 else 0
  skeleton := ⟨[], []⟩
  bindMatrix := Mat4.id
  bindMatrixInverse := Mat4.id
  matrixWorld := Mat4.id

/-- A concrete mesh whose single vertex is at `(1,2,3)` with all four skin
weights zero (the unskinned-vertex case), over identity matrices. -/
noncomputable def exMeshC7 : MeshData where
  positions := [⟨1, 2, 3⟩]
  index := none
  skinIndex := fun _ _ => 0
  skinWeight := fun _ _ => 0
  skeleton := ⟨[], []⟩
  bindMatrix := Mat4.id
  bindMatrixInverse := Mat4.id
  matrixWorld := Mat4.id

/-- The six effect names (`EFFECTS` / the keys of `params.activeEffects`). -/
inductive EffectName where
  | hover
  | noise
  | wave
  | spiral
  | disperse
  | spiralFlow
deriving DecidableEq

/-- One entry of `params.effectParams`: per-effect intensity, speed, and the
spiralFlow-specific fields. -/
structure EffectParam where
  intensity : ℝ
  speed : ℝ
  flowSpeed : ℝ
  waves : ℕ

/-- `params.activeEffects`: one activation flag per effect name. -/
structure ActiveFlags where
  hover : Bool
  noise : Bool
  wave : Bool
  spiral : Bool
  disperse : Bool
  spiralFlow : Bool
deriving DecidableEq

namespace ActiveFlags

/-- All effects off. -/
def allOff : ActiveFlags := ⟨false, false, false, false, false, false⟩

/-- `activeEffects[name]`. -/
def get (a : ActiveFlags) : EffectName → Bool
  | .hover => a.hover
  | .noise => a.noise
  | .wave => a.wave
  | .spiral => a.spiral
  | .disperse => a.disperse
  | .spiralFlow => a.spiralFlow

/-- `activeEffects[name] = b`. -/
def set (a : ActiveFlags) : EffectName → Bool → ActiveFlags
  | .hover, b => { a with hover := b }
  | .noise, b => { a with noise := b }
  | .wave, b => { a with wave := b }
  | .spiral, b => { a with spiral := b }
  | .disperse, b => { a with disperse := b }
  | .spiralFlow, b => { a with spiralFlow := b }

/-- `Object.values(activeEffects).some(v => v)`. -/
def anyOn (a : ActiveFlags) : Bool :=
  a.hover || a.noise || a.wave || a.spiral || a.disperse || a.spiralFlow

/-- `Object.values(activeEffects).filter(v => v).length`. -/
def countOn (a : ActiveFlags) : ℕ :=
  (cond a.hover 1 0) + (cond a.noise 1 0) + (cond a.wave 1 0) +
    (cond a.spiral 1 0) + (cond a.disperse 1 0) + (cond a.spiralFlow 1 0)

end ActiveFlags

/-- `params.effectParams`: one parameter record per effect name. -/
structure EffectParamsRec where
  hover : EffectParam
  noise : EffectParam
  wave : EffectParam
  spiral : EffectParam
  disperse : EffectParam
  spiralFlow : EffectParam

namespace EffectParamsRec

/-- `effectParams[name]`. -/
def get (p : EffectParamsRec) : EffectName → EffectParam
  | .hover => p.hover
  | .noise => p.noise
  | .wave => p.wave
  | .spiral => p.spiral
  | .disperse => p.disperse
  | .spiralFlow => p.spiralFlow

/-- `effectParams[name] = v`. -/
def set (p : EffectParamsRec) : EffectName → EffectParam → EffectParamsRec
  | .hover, v => { p with hover := v }
  | .noise, v => { p with noise := v }
  | .wave, v => { p with wave := v }
  | .spiral, v => { p with spiral := v }
  | .disperse, v => { p with disperse := v }
  | .spiralFlow, v => { p with spiralFlow := v }

/-- Map a function over every entry (`Object.keys(effectParams).forEach`). -/
def mapAll (p : EffectParamsRec) (f : EffectParam → EffectParam) : EffectParamsRec :=
  ⟨f p.hover, f p.noise, f p.wave, f p.spiral, f p.disperse, f p.spiralFlow⟩

end EffectParamsRec

/-- The runtime-mutable parameter bag (`config.js`, `params`), restricted to
the fields the animation core reads and writes.  `effectType = none` models the
string `"none"`; the fields prefixed `_` in the source lose the underscore
here.  (Rendering-only fields — colors, bloom, character size — are omitted:
no modelled code path reads them.) -/
structure Params where
  effectType : Option EffectName
  effectIntensity : ℝ
  effectSpeed : ℝ
  disperseAmount : ℝ
  disperseTarget : ℝ
  spiralFlowProgress : ℝ
  spiralFlowSpeed : ℝ
  spiralFlowWaves : ℕ
  spiralFlowActive : Bool
  isReturning : Bool
  focusedEffect : Option EffectName
  activeEffects : ActiveFlags
  effectParams : EffectParamsRec

/-- The ambient inputs of `applyEffects` beyond the parameter bag: the global
effect clock (`effectTime`), the per-instance random disperse directions (an
out-of-range access yields `undefined`, hence `Option`), and the optional
model center used by the spiral-flow effect. -/
structure EffectEnv where
  params : Params
  effectTime : ℝ
  disperseDirections : ℕ → Option Vec3
  modelCenter : Option Vec3

/-- `easeInOutCubic` (`instancedMesh.js`). -/
noncomputable def easeInOutCubic (t : ℝ) : ℝ :=
  if t < 0.5 then 4 * t * t * t else 1 - (-2 * t + 2) ^ 3 / 2

/-- `applySpiralFlowEffect` (`instancedMesh.js`, lines 271–326), translated
clause by clause.  `dirLen` models `Math.sqrt(...) || 1`. -/
noncomputable def applySpiralFlowEffect (env : EffectEnv) (idx : ℕ) (pos : Vec3)
    (time : ℝ) (p : EffectParam) : Vec3 :=
  let progress := env.params.spiralFlowProgress
  if progress ≤ 0 then pos
  else
    let center := env.modelCenter.getD ⟨0, 50, 0⟩
    let normalizedY := (pos.y + 50) / 250
    let waves : ℝ := (p.waves : ℝ)
    let waveIndex : ℤ := ⌊normalizedY * waves⌋
    let wavePhase := (waveIndex : ℝ) / waves
    let randomOffset := ((idx % 100 : ℕ) : ℝ) / 100 * 0.3
    let charStartTime := wavePhase * 0.5 + randomOffset * 0.2
    let charEndTime := charStartTime + 0.5
    let charProgress :=
      if charStartTime < progress then
        if progress < charEndTime then
          (progress - charStartTime) / (charEndTime - charStartTime)
        else if progress < charEndTime + 0.3 then
          1 - (progress - charEndTime) / 0.3
        else 0
      else 0
    if charProgress ≤ 0 then pos
    else
      let smoothProgress := easeInOutCubic (min charProgress 1)
      let spiralRadius := p.intensity * 3 * smoothProgress
      let spiralHeight := p.intensity * 2 * smoothProgress
      let angleOffset := (idx : ℝ) * 0.01 + wavePhase * Real.pi * 2
      let spiralAngle := time * 3 + angleOffset + smoothProgress * Real.pi * 4
      let dirX := pos.x - center.x
      let dirZ := pos.z - center.z
      let dirLen0 := Real.sqrt (dirX * dirX + dirZ * dirZ)
      let dirLen := if dirLen0 = 0 then 1 else dirLen0
      let outwardDist := p.intensity * 2 * smoothProgress
      ⟨pos.x + dirX / dirLen * outwardDist + Real.cos spiralAngle * spiralRadius,
       pos.y + Real.sin (smoothProgress * Real.pi) * spiralHeight,
       pos.z + dirZ / dirLen * outwardDist + Real.sin spiralAngle * spiralRadius⟩

/-- The hover branch of `applyEffects`. -/
noncomputable def hoverBranch (env : EffectEnv) (idx : ℕ) (pos : Vec3) : Vec3 :=
  if env.params.activeEffects.hover = true ∨ env.params.effectType = some .hover then
    let p := env.params.effectParams.hover
    let time := env.effectTime * p.speed
    let phase := (idx : ℝ) * 0.1
    ⟨pos.x + Real.sin (time * 2 + phase) * p.intensity * 0.5,
     pos.y + Real.sin (time * 3 + phase * 1.3) * p.intensity * 0.3,
     pos.z + Real.cos (time * 2.5 + phase * 0.7) * p.intensity * 0.4⟩
  else pos

/-- The disperse branch of `applyEffects`. -/
noncomputable def disperseBranch (env : EffectEnv) (idx : ℕ) (pos : Vec3) : Vec3 :=
  if env.params.activeEffects.disperse = true ∨ env.params.effectType = some .disperse then
    let p := env.params.effectParams.disperse
    match env.disperseDirections idx with
    | some dir =>
        let distance := env.params.disperseAmount * p.intensity * 10
        ⟨pos.x + dir.x * distance, pos.y + dir.y * distance, pos.z + dir.z * distance⟩
    | none => pos
  else pos

/-- The noise branch of `applyEffects`. -/
noncomputable def noiseBranch (env : EffectEnv) (idx : ℕ) (pos : Vec3) : Vec3 :=
  if env.params.activeEffects.noise = true ∨ env.params.effectType = some .noise then
    let p := env.params.effectParams.noise
    let time := env.effectTime * p.speed
    let noiseScale := p.intensity * 0.5
    ⟨pos.x + Real.sin (time * 10 + (idx : ℝ) * 100) * noiseScale,
     pos.y + Real.cos (time * 12 + (idx : ℝ) * 73) * noiseScale,
     pos.z + Real.sin (time * 8 + (idx : ℝ) * 47) * noiseScale⟩
  else pos

/-- The wave branch of `applyEffects`.  Note that it reads the *current*
vertical coordinate `pos.y`, i.e. the position already displaced by the
earlier hover/disperse/noise branches. -/
noncomputable def waveBranch (env : EffectEnv) (_idx : ℕ) (pos : Vec3) : Vec3 :=
  if env.params.activeEffects.wave = true ∨ env.params.effectType = some .wave then
    let p := env.params.effectParams.wave
    let time := env.effectTime * p.speed
    let waveOffset := Real.sin (time * 2 + pos.y * 0.05) * p.intensity
    ⟨pos.x + waveOffset, pos.y, pos.z⟩
  else pos

/-- The spiral branch of `applyEffects`. -/
noncomputable def spiralBranch (env : EffectEnv) (idx : ℕ) (pos : Vec3) : Vec3 :=
  if env.params.activeEffects.spiral = true ∨ env.params.effectType = some .spiral then
    let p := env.params.effectParams.spiral
    let time := env.effectTime * p.speed
    let angle := time * 2 + (idx : ℝ) * 0.1
    let radius := p.intensity * 0.5
    ⟨pos.x + Real.cos angle * radius, pos.y, pos.z + Real.sin angle * radius⟩
  else pos

/-- The spiralFlow branch of `applyEffects`. -/
noncomputable def spiralFlowBranch (env : EffectEnv) (idx : ℕ) (pos : Vec3) : Vec3 :=
  if env.params.activeEffects.spiralFlow = true ∨ env.params.effectType = some .spiralFlow then
    let p := env.params.effectParams.spiralFlow
    let time := env.effectTime * p.speed
    applySpiralFlowEffect env idx pos time p
  else pos

/-- `applyEffects` (`instancedMesh.js`, lines 198–262): the branches run in
source order — hover, disperse, noise, wave, spiral, spiralFlow — each
mutating the position in place; with no active effect and
`effectType === "none"` the function returns early. -/
noncomputable def applyEffects (env : EffectEnv) (idx : ℕ) (pos : Vec3) : Vec3 :=
  if env.params.activeEffects.anyOn = false ∧ env.params.effectType = none then pos
  else
    spiralFlowBranch env idx
      (spiralBranch env idx
        (waveBranch env idx
          (noiseBranch env idx
            (disperseBranch env idx
              (hoverBranch env idx pos)))))

/-- The displacement contributed by the effect engine for one instance: final
position minus base position. -/
noncomputable def displacement (env : EffectEnv) (idx : ℕ) (pos : Vec3) : Vec3 :=
  Vec3.sub (applyEffects env idx pos) pos

/-- Replace the activation flags of an environment (and clear `effectType`, so
that only the chosen flags drive the displacement) — used to express "the
displacement effect `e` would produce in isolation". -/
def withActive (env : EffectEnv) (fl : ActiveFlags) : EffectEnv :=
  { env with params := { env.params with activeEffects := fl, effectType := none } }

/-- The activation-flag set holding exactly one effect. -/
def soloFlags (e : EffectName) : ActiveFlags := ActiveFlags.allOff.set e true

/-- The activation-flag set holding exactly two effects. -/
def pairFlags (e1 e2 : EffectName) : ActiveFlags :=
  (ActiveFlags.allOff.set e1 true).set e2 true

/-- An effect whose displacement formula does not read the current (partially
displaced) position: every effect except `wave` and `spiralFlow`. -/
def posIndependent (e : EffectName) : Prop :=
  e ≠ .wave ∧ e ≠ .spiralFlow

/-- A concrete effect environment with wave and disperse active: wave intensity
`1`, speed `1`; disperse intensity `2`; `disperseAmount = 1`; every disperse
direction `(0,1,0)`; `effectTime = 0`. -/
noncomputable def exEnvC2 : EffectEnv where
  params :=
    { effectType := none
      effectIntensity := 5
      effectSpeed := 1
      disperseAmount := 1
      disperseTarget := 0
      spiralFlowProgress := 0
      spiralFlowSpeed := 1
      spiralFlowWaves := 5
      spiralFlowActive := false
      isReturning := false
      focusedEffect := none
      activeEffects := pairFlags .wave .disperse
      effectParams :=
        { hover := ⟨5, 1, 1, 5⟩
          noise := ⟨5, 1, 1, 5⟩
          wave := ⟨1, 1, 1, 5⟩
          spiral := ⟨5, 1, 1, 5⟩
          disperse := ⟨2, 1, 1, 5⟩
          spiralFlow := ⟨5, 1, 1, 5⟩ } }
  effectTime := 0
  disperseDirections := fun _ => some ⟨0, 1, 0⟩
  modelCenter := none

/-! ### Mystique fade (`mystiqueFade.js`) -/

/-- `FADE_RATE` (0.992). -/
noncomputable def fadeRate : ℝ := 0.992

/-- `FADE_THRESHOLD` (0.05). -/
noncomputable def fadeThreshold : ℝ := 0.05

/-- `DEFAULT_INTENSITY` (5.0). -/
noncomputable def defaultIntensity : ℝ := 5.0

/-- The decay phase of `processMystiqueFade`: multiply the global intensity,
every per-effect intensity, `disperseAmount` and `spiralFlowProgress` by
`FADE_RATE`. -/
noncomputable def fadeDecay (p : Params) : Params :=
  { p with
    effectIntensity := p.effectIntensity * fadeRate
    effectParams := p.effectParams.mapAll fun e => { e with intensity := e.intensity * fadeRate }
    disperseAmount := p.disperseAmount * fadeRate
    spiralFlowProgress := p.spiralFlowProgress * fadeRate }

/-- The `allFaded` test of `processMystiqueFade`: all three of global
intensity, `disperseAmount` and `spiralFlowProgress` below `FADE_THRESHOLD`. -/
def allFaded (p : Params) : Prop :=
  p.effectIntensity < fadeThreshold ∧ p.disperseAmount < fadeThreshold ∧
    p.spiralFlowProgress < fadeThreshold

noncomputable instance (p : Params) : Decidable (allFaded p) := by
  unfold allFaded
  infer_instance

/-- `completeFade` (`mystiqueFade.js`, lines 73–99): deactivate every effect,
zero the transients, reset the global and every per-effect intensity to
`DEFAULT_INTENSITY` (the source first writes `0` to the global intensity and
then overwrites it with the default), clear the returning flag and the focus.
The `_resetAllButtons` UI callback has no engine-state effect and is omitted. -/
noncomputable def completeFade (p : Params) : Params :=
  { p with
    effectIntensity := defaultIntensity
    effectType := none
    activeEffects := ActiveFlags.allOff
    isReturning := false
    spiralFlowActive := false
    disperseAmount := 0
    spiralFlowProgress := 0
    effectParams := p.effectParams.mapAll fun e => { e with intensity := defaultIntensity }
    focusedEffect := none }

/-- `processMystiqueFade` (`mystiqueFade.js`, lines 39–68): a no-op unless
`_isReturning`; otherwise decay, then complete the fade when everything is
below the threshold.  The boolean result mirrors the source's return value. -/
noncomputable def processMystiqueFade (p : Params) : Params × Bool :=
  if p.isReturning = false then (p, false)
  else
    let p' := fadeDecay p
    if allFaded p' then (completeFade p', true) else (p', false)

/-- One frame of the fade state machine (the state part of
`processMystiqueFade`). -/
noncomputable def fadeStep (p : Params) : Params := (processMystiqueFade p).1

/-- The rest state reached when the fade completes: every effect inactive,
transients zero, intensities back at the default, returning flag and focus
cleared. -/
def atRest (p : Params) : Prop :=
  p.activeEffects = ActiveFlags.allOff ∧
  p.disperseAmount = 0 ∧
  p.spiralFlowProgress = 0 ∧
  p.effectIntensity = defaultIntensity ∧
  (∀ e, (p.effectParams.get e).intensity = defaultIntensity) ∧
  p.isReturning = false ∧
  p.focusedEffect = none ∧
  p.effectType = none ∧
  p.spiralFlowActive = false

/-- The state after `n` uninterrupted decay frames: the four decayed field
groups scaled by `fadeRate ^ n`, everything else untouched. -/
noncomputable def decayIter (n : ℕ) (p : Params) : Params :=
  { p with
    effectIntensity := fadeRate ^ n * p.effectIntensity
    effectParams := p.effectParams.mapAll fun e => { e with intensity := fadeRate ^ n * e.intensity }
    disperseAmount := fadeRate ^ n * p.disperseAmount
    spiralFlowProgress := fadeRate ^ n * p.spiralFlowProgress }

/-- A concrete returning state for the fade: intensity `5`, transients at `1`,
three effects active, hover focused. -/
noncomputable def exParamsC4 : Params where
  effectType := some .hover
  effectIntensity := 5
  effectSpeed := 1
  disperseAmount := 1
  disperseTarget := 0
  spiralFlowProgress := 1
  spiralFlowSpeed := 1
  spiralFlowWaves := 5
  spiralFlowActive := true
  isReturning := true
  focusedEffect := some .hover
  activeEffects := ⟨true, true, false, false, true, false⟩
  effectParams :=
    { hover := ⟨10, 1, 1, 5⟩
      noise := ⟨3, 1, 1, 5⟩
      wave := ⟨5, 1, 1, 5⟩
      spiral := ⟨5, 1, 1, 5⟩
      disperse := ⟨8, 1, 1, 5⟩
      spiralFlow := ⟨5, 1, 1, 5⟩ }

/-! ### Immediate stop and per-frame transient animators -/

/-- The "STOP ALL" handler (`gui.js`, lines 410–428): clear the returning
flag, deactivate every effect, reset `effectType`, zero the disperse target,
stop the spiral flow, clear the focus.  (The `resetAllButtons` call only
restyles the UI.)  Note that it does **not** write `disperseAmount` or
`spiralFlowProgress`. -/
def stopAll (p : Params) : Params :=
  { p with
    isReturning := false
    activeEffects := ActiveFlags.allOff
    effectType := none
    disperseTarget := 0
    spiralFlowActive := false
    focusedEffect := none }

/-- The transient animators of the frame loop (`main.js`, lines 1511–1522):
`disperseAmount` is smoothed toward the target by exponential interpolation
(`_disperseTarget` is always a number, so the `??` fallback never fires), and
`spiralFlowProgress` grows while the flow is active and otherwise decays by
`0.95` per frame. -/
noncomputable def animateTransients (delta : ℝ) (p : Params) : Params :=
  let target := p.disperseTarget
  let p1 :=
    { p with disperseAmount :=
        p.disperseAmount + (target - p.disperseAmount) * 0.02 * p.effectSpeed }
  if p1.spiralFlowActive = true ∨ p1.effectType = some .spiralFlow then
    { p1 with spiralFlowProgress := p1.spiralFlowProgress + delta * p1.spiralFlowSpeed }
  else if p1.effectType ≠ some .spiralFlow then
    { p1 with spiralFlowProgress := p1.spiralFlowProgress * 0.95 }
  else p1

/-! ### Chaos driver (`CHAOS MIX`)

The color and bloom evolution (`evolveColor`, `evolveBloom`) only write the
`color` / `bloomStrength` / `bloomRadius` fields, which no modelled component
reads; they are therefore not part of the embedded state. -/

/-- The golden ratio constant `PHI` (the source's decimal literal). -/
noncomputable def PHI : ℝ := 1.6180339887498948482

/-- The golden angle constant, in degrees. -/
noncomputable def GOLDEN_ANGLE : ℝ := 137.5077640500378546463

/-- The `FIBONACCI` table. -/
noncomputable def FIBONACCI : List ℝ :=
  [1, 1, 2, 3, 5, 8, 13, 21, 34, 55, 89, 144, 233, 377, 610]

/-- The `EFFECTS` cycling order. -/
def EFFECTS : List EffectName :=
  [.hover, .wave, .spiral, .noise, .disperse, .spiralFlow]

/-- `MAX_ACTIVE_EFFECTS`. -/
def MAX_ACTIVE_EFFECTS : ℕ := 3

/-- `quantumProbability` (chaos driver, lines 52–61): a normalized two-phase
interference pattern scaled by the current entropy. -/
noncomputable def quantumProbability (effectIndex : ℕ) (time entropy : ℝ) : ℝ :=
  let phase1 := Real.sin (time * PHI + (effectIndex : ℝ) * GOLDEN_ANGLE * Real.pi / 180)
  let phase2 := Real.cos (time / PHI + (effectIndex : ℝ) * Real.pi / PHI)
  let interference := (phase1 + phase2) / 2
  ((interference + 1) / 2) * entropy

/-- `FIBONACCI[k]` for a JavaScript truncated-remainder index: a negative
index reads `undefined` and poisons the arithmetic to `NaN`, modelled by `0`
(no claim depends on that branch). -/
noncomputable def fibLookup (k : ℤ) : ℝ :=
  if 0 ≤ k then FIBONACCI.getD k.toNat 0 else 0

/-- `fibonacciIntensity`: oscillation with a Fibonacci-indexed period
(`FIBONACCI[Math.floor(time) % FIBONACCI.length]`, with JavaScript's
sign-of-dividend remainder `Int.tmod`). -/
noncomputable def fibonacciIntensity (time baseIntensity : ℝ) : ℝ :=
  let fibPhase := fibLookup (Int.tmod ⌊time⌋ 15)
  let oscillation := Real.sin (time * Real.pi / fibPhase)
  baseIntensity * (1 + oscillation * 0.5)

/-- The chaos driver's module-level state (`isRunning`, `startTime`,
`lastEventTime`, `fibIndex`, `entropy`, `cycleCount`). -/
structure ChaosState where
  isRunning : Bool
  startTime : ℝ
  lastEventTime : ℝ
  fibIndex : ℕ
  entropy : ℝ
  cycleCount : ℕ

/-- `triggerFibonacciEvent` (chaos driver, lines 200–266).  `r1` models the
`Math.random()` used for the effect pick and `r2` the one used for the
disperse-target oscillation.  The GUI callbacks (`onEffectChange`,
`onParamsChange`) have no engine-state effect and are omitted. -/
noncomputable def triggerFibonacciEvent (elapsed r1 r2 entropy : ℝ) (p : Params) : Params :=
  let activeCount := p.activeEffects.countOn
  let effectIndex : ℕ := (⌊r1 * 6⌋).toNat
  let effectName := EFFECTS.getD effectIndex .hover
  let prob := quantumProbability effectIndex elapsed entropy
  let p1 :=
    if prob > 0.4 ∧ p.activeEffects.get effectName = false ∧
        activeCount < MAX_ACTIVE_EFFECTS then
      let baseIntensity : ℝ :=
        if effectName = .noise then 3 else if effectName = .disperse then 8 else 10
      let newParam :=
        { p.effectParams.get effectName with
          intensity := baseIntensity + entropy * 5
          speed := 0.5 + entropy * 0.5 }
      { p with
        activeEffects := p.activeEffects.set effectName true
        focusedEffect := some effectName
        effectParams := p.effectParams.set effectName newParam
        effectIntensity := baseIntensity + entropy * 5
        effectSpeed := 0.5 + entropy * 0.5 }
    else if p.activeEffects.get effectName = true ∧
        (prob < 0.3 ∨ MAX_ACTIVE_EFFECTS ≤ activeCount) then
      { p with activeEffects := p.activeEffects.set effectName false }
    else p
  let p2 :=
    if p1.activeEffects.disperse = true then
      { p1 with disperseTarget := if r2 > 0.5 then 1 else 0.5 }
    else p1
  if p2.activeEffects.spiralFlow = true then
    { p2 with spiralFlowActive := true }
  else p2

/-- One iteration of the `evolveEffects` loop for effect `e` at key position
`index`.  (The initializer fixing the `Object.keys(effectParams)` order is not
in the sources; the record's declaration order — hover, noise, wave, spiral,
disperse, spiralFlow — is used.  No claim depends on that order.) -/
noncomputable def evolveOne (elapsed entropy : ℝ) (index : ℕ) (e : EffectName)
    (p : Params) : Params :=
  if p.activeEffects.get e = true then
    let maxIntensity : ℝ := if e = .noise then 8 else if e = .disperse then 15 else 20
    let baseIntensity := 3 + entropy * (maxIntensity - 3)
    let intensity := fibonacciIntensity (elapsed + (index : ℝ) * PHI) baseIntensity
    let speed := 0.3 + Real.sin (elapsed * PHI / ((index : ℝ) + 1)) * 0.3 * entropy
    let newParam :=
      { p.effectParams.get e with intensity := intensity, speed := 0.3 + speed }
    { p with effectParams := p.effectParams.set e newParam }
  else p

/-- The focused-effect sync at the end of `evolveEffects`: copy the focused
active effect's evolved values into the global display fields. -/
noncomputable def syncFocused (p : Params) : Params :=
  match p.focusedEffect with
  | some f =>
      if p.activeEffects.get f = true then
        { p with
          effectIntensity := (p.effectParams.get f).intensity
          effectSpeed := (p.effectParams.get f).speed }
      else p
  | none => p

/-- `evolveEffects` (chaos driver, lines 271–303): drift every active effect's
intensity and speed, then sync the focused active effect's values into the
global display fields.  (The periodic GUI-slider refresh is display-only and
omitted.) -/
noncomputable def evolveEffects (elapsed entropy : ℝ) (p : Params) : Params :=
  syncFocused
    (evolveOne elapsed entropy 5 .spiralFlow
      (evolveOne elapsed entropy 4 .disperse
        (evolveOne elapsed entropy 3 .spiral
          (evolveOne elapsed entropy 2 .wave
            (evolveOne elapsed entropy 1 .noise
              (evolveOne elapsed entropy 0 .hover p))))))

/-- `processChaosMix` (chaos driver, lines 171–195): a no-op unless running;
otherwise update the entropy from the elapsed run time, fire a
Fibonacci-timed event when the boundary has been crossed, then evolve the
active effects.  `now` is `performance.now() / 1000`; `r1`, `r2` feed the
event's random draws. -/
noncomputable def processChaosMix (now r1 r2 : ℝ) (st : ChaosState) (p : Params) :
    ChaosState × Params :=
  if st.isRunning = false then (st, p)
  else
    let elapsed := now - st.startTime
    let entropy := min 1 (0.2 + elapsed * 0.02)
    let st1 := { st with entropy := entropy }
    let nextEventTime :=
      st1.lastEventTime + FIBONACCI.getD (st1.fibIndex % FIBONACCI.length) 0 * 0.5
    let sp :=
      if now ≥ nextEventTime then
        ({ st1 with
            lastEventTime := now
            fibIndex := st1.fibIndex + 1
            cycleCount := st1.cycleCount + 1 },
         triggerFibonacciEvent elapsed r1 r2 entropy p)
      else (st1, p)
    (sp.1, evolveEffects elapsed entropy sp.2)

/-! ### The adaptive surface sampler (`sampleVertices` / `sampleSkeletonBones`)

The capped functions (`addSample`, `pushLoop`, `edgesRun`, `facesRun`,
`meshRun`, `meshesRun`, `meshBonesRun`, `bonesRun`, `sampleRun`) translate the
source loops with their `maxCharacters` guards and breaks; the `...Emit`
functions describe the same emission with the cap removed ("theoretical
unbounded sampling").  Only the sample-descriptor array is modelled — the
parallel `vertexWeights` / `vertexBoneIndices` arrays receive no cap check of
their own and are never read by the modelled claims. -/

/-- `Math.ceil(indexAttr.count / 3)`: the number of face-loop iterations
(`f < faceCount` with real division in the source bounds `f` by the ceiling). -/
def faceCountOf (idx : List ℕ) : ℕ := (idx.length + 2) / 3

/-- `indexAttr.getX(3f + k)`. -/
def faceV (idx : List ℕ) (f k : ℕ) : ℕ := idx.getD (3 * f + k) 0

/-- The loop indices `0, N, 2N, ...` of a `for (i = 0; i < n; i += density)`
loop (for `density ≥ 1`; the GUI restricts the density to `1..10`). -/
def stepIdxs (density n : ℕ) : List ℕ :=
  (List.range n).filter (fun i => i % density = 0)

/-- `triangleArea`: half the cross-product length. -/
noncomputable def triangleArea (p0 p1 p2 : Vec3) : ℝ :=
  Vec3.len (Vec3.cross (Vec3.sub p1 p0) (Vec3.sub p2 p0)) * 0.5

/-- The area of face `f` of a mesh. -/
noncomputable def faceArea (m : MeshData) (idx : List ℕ) (f : ℕ) : ℝ :=
  triangleArea (m.getPos (faceV idx f 0)) (m.getPos (faceV idx f 1))
    (m.getPos (faceV idx f 2))

/-- The first pass of the face loop: the mean face area. -/
noncomputable def avgArea (m : MeshData) (idx : List ℕ) : ℝ :=
  (((List.range (faceCountOf idx)).map (faceArea m idx)).sum) / (faceCountOf idx : ℝ)

/-- The base interior barycentric points. -/
noncomputable def baseBary : List (ℝ × ℝ × ℝ) :=
  [(0.5, 0.25, 0.25), (0.25, 0.5, 0.25), (0.25, 0.25, 0.5),
   (0.6, 0.2, 0.2), (0.2, 0.6, 0.2), (0.2, 0.2, 0.6)]

/-- The densified interior grid of a large face:
`subdivisions = min(10, ⌈area/avgArea⌉ + 3)`, all grid points except the three
corners.  (In the reachable cases `avgArea > 0` whenever this grid is used:
a large face has `area > 2·avgArea ≥ 0`, and a positive face area forces a
positive mean.) -/
noncomputable def adaptiveBary (area avg : ℝ) : List (ℝ × ℝ × ℝ) :=
  let subdivisions := min 10 (⌈area / avg⌉ + 3).toNat
  (List.range (subdivisions + 1)).flatMap fun i =>
    (List.range (subdivisions + 1 - i)).flatMap fun j =>
      let k := subdivisions - i - j
      if i + j + k = subdivisions then
        let u := (i : ℝ) / (subdivisions : ℝ)
        let v := (j : ℝ) / (subdivisions : ℝ)
        let w := (k : ℝ) / (subdivisions : ℝ)
        if (u = 1 ∨ v = 1 ∨ w = 1) ∧ (u = 0 ∨ v = 0 ∨ w = 0) then []
        else [(u, v, w)]
      else []

/-- The interior barycentric points chosen for face `f`: the densified grid
when the face is "large" (`area > 2 × avgArea`), the base six otherwise. -/
noncomputable def faceBarys (m : MeshData) (idx : List ℕ) (f : ℕ) : List (ℝ × ℝ × ℝ) :=
  if avgArea m idx * 2 < faceArea m idx f then
    adaptiveBary (faceArea m idx f) (avgArea m idx)
  else baseBary

/-- The edge parameter offsets chosen for face `f`: nine for a large face,
three otherwise. -/
noncomputable def faceEdgeTs (m : MeshData) (idx : List ℕ) (f : ℕ) : List ℝ :=
  if avgArea m idx * 2 < faceArea m idx f then
    [0.1, 0.2, 0.3, 0.4, 0.5, 0.6, 0.7, 0.8, 0.9]
  else [0.25, 0.5, 0.75]

/-- The undirected edge key `` `${min}-${max}` ``. -/
def edgeKey (a b : ℕ) : ℕ × ℕ := (min a b, max a b)

/-- `addSample`: push unless the cap is reached. -/
def addSample (maxChars : ℕ) (acc : List SampleDesc) (s : SampleDesc) :
    List SampleDesc :=
  if maxChars ≤ acc.length then acc else acc ++ [s]

/-- A `for`-loop of guarded pushes: before every push the running total is
checked against the cap and the loop stops once it is reached. -/
def pushLoop (maxChars : ℕ) (acc : List SampleDesc) :
    List SampleDesc → List SampleDesc
  | [] => acc
  | s :: rest =>
      if maxChars ≤ acc.length then acc
      else pushLoop maxChars (acc ++ [s]) rest

/-- The edge loop of one face, capped: for each of the three directed pairs,
skip if the undirected key was already sampled, otherwise record the key and
emit one `edgePoint` per offset (guarded). -/
noncomputable def edgesRun (maxChars mi : ℕ) (ts : List ℝ) (acc : List SampleDesc)
    (es : List (ℕ × ℕ)) : List (ℕ × ℕ) → List SampleDesc × List (ℕ × ℕ)
  | [] => (acc, es)
  | (a, b) :: rest =>
      if edgeKey a b ∈ es then edgesRun maxChars mi ts acc es rest
      else
        edgesRun maxChars mi ts
          (pushLoop maxChars acc (ts.map (fun t => SampleDesc.edgePoint mi a b t)))
          (edgeKey a b :: es) rest

/-- The edge emission of one face, unbounded (same key threading). -/
noncomputable def edgesEmit (mi : ℕ) (ts : List ℝ) (es : List (ℕ × ℕ)) :
    List (ℕ × ℕ) → List SampleDesc × List (ℕ × ℕ)
  | [] => ([], es)
  | (a, b) :: rest =>
      if edgeKey a b ∈ es then edgesEmit mi ts es rest
      else
        let r := edgesEmit mi ts (edgeKey a b :: es) rest
        (ts.map (fun t => SampleDesc.edgePoint mi a b t) ++ r.1, r.2)

/-- The face loop of `sampleVertices`, capped: per sampled face — break at the
cap, else emit the face center, the interior points and the deduplicated edge
points. -/
noncomputable def facesRun (maxChars : ℕ) (m : MeshData) (idx : List ℕ) (mi : ℕ)
    (acc : List SampleDesc) (es : List (ℕ × ℕ)) : List ℕ → List SampleDesc
  | [] => acc
  | f :: rest =>
      if maxChars ≤ acc.length then acc
      else
        let i0 := faceV idx f 0
        let i1 := faceV idx f 1
        let i2 := faceV idx f 2
        let acc1 := addSample maxChars acc (SampleDesc.faceCenter mi i0 i1 i2)
        let acc2 := pushLoop maxChars acc1
          ((faceBarys m idx f).map fun b => SampleDesc.interior mi i0 i1 i2 b.1 b.2.1 b.2.2)
        let r := edgesRun maxChars mi (faceEdgeTs m idx f) acc2 es
          [(i0, i1), (i1, i2), (i2, i0)]
        facesRun maxChars m idx mi r.1 r.2 rest

/-- The face emission, unbounded. -/
noncomputable def facesEmit (m : MeshData) (idx : List ℕ) (mi : ℕ)
    (es : List (ℕ × ℕ)) : List ℕ → List SampleDesc
  | [] => []
  | f :: rest =>
      let i0 := faceV idx f 0
      let i1 := faceV idx f 1
      let i2 := faceV idx f 2
      let r := edgesEmit mi (faceEdgeTs m idx f) es [(i0, i1), (i1, i2), (i2, i0)]
      (SampleDesc.faceCenter mi i0 i1 i2 ::
        ((faceBarys m idx f).map fun b => SampleDesc.interior mi i0 i1 i2 b.1 b.2.1 b.2.2) ++
          r.1) ++
        facesEmit m idx mi r.2 rest

/-- One mesh's pass of `sampleVertices`, capped: every `density`-th vertex,
then (for indexed geometry) every `density`-th face, with a fresh per-mesh
edge set. -/
noncomputable def meshRun (maxChars : ℕ) (m : MeshData) (mi density : ℕ)
    (acc : List SampleDesc) : List SampleDesc :=
  let acc1 := pushLoop maxChars acc
    ((stepIdxs density m.positions.length).map (SampleDesc.vertex mi))
  match m.index with
  | some idx => facesRun maxChars m idx mi acc1 [] (stepIdxs density (faceCountOf idx))
  | none => acc1

/-- One mesh's emission, unbounded. -/
noncomputable def meshEmit (m : MeshData) (mi density : ℕ) : List SampleDesc :=
  ((stepIdxs density m.positions.length).map (SampleDesc.vertex mi)) ++
    match m.index with
    | some idx => facesEmit m idx mi [] (stepIdxs density (faceCountOf idx))
    | none => []

/-- The mesh loop of `sampleVertices`, capped. -/
noncomputable def meshesRun (maxChars density : ℕ) (acc : List SampleDesc) :
    List (ℕ × MeshData) → List SampleDesc
  | [] => acc
  | (mi, m) :: rest => meshesRun maxChars density (meshRun maxChars m mi density acc) rest

/-- The mesh loop emission, unbounded. -/
noncomputable def meshesEmit (density : ℕ) : List (ℕ × MeshData) → List SampleDesc
  | [] => []
  | (mi, m) :: rest => meshEmit m mi density ++ meshesEmit density rest

/-- ASCII lowercasing of one character (the effect of `toLowerCase()` on the
ASCII bone names this repository's models use). -/
def lowerChar (c : Char) : Char :=
  if c.isUpper then Char.ofNat (c.toNat + 32) else c

/-- Whether a bone name matches the fill-gap convention
(`name.toLowerCase().includes("tail")`). -/
def containsTail (s : String) : Bool :=
  let l := s.data.map lowerChar
  (List.range (l.length + 1)).any fun i => ("tail".data).isPrefixOf (l.drop i)

/-- The 21 bone points of one tail bone (`i = 0..20`, `t = i/20`), provided
its parent exists and is a bone. -/
noncomputable def boneEmitOne (mi bi : ℕ) (b : Bone) : List SampleDesc :=
  match b.parentIdx with
  | none => []
  | some pbi => (List.range 21).map fun i => SampleDesc.bonePoint mi bi pbi ((i : ℝ) / 20)

/-- `sampleSkeletonBones` for one mesh, capped: for each tail bone (by
enumeration index, the model of `bones.indexOf`), push its 21 points with the
cap checked before every push. -/
noncomputable def meshBonesRun (maxChars mi : ℕ) (m : MeshData)
    (acc : List SampleDesc) : List SampleDesc :=
  ((m.skeleton.bones.enum).filter fun p => containsTail p.2.name).foldl
    (fun a p => pushLoop maxChars a (boneEmitOne mi p.1 p.2)) acc

/-- `sampleSkeletonBones` for one mesh, unbounded. -/
noncomputable def meshBonesEmit (mi : ℕ) (m : MeshData) : List SampleDesc :=
  ((m.skeleton.bones.enum).filter fun p => containsTail p.2.name).flatMap
    fun p => boneEmitOne mi p.1 p.2

/-- The mesh loop of `sampleSkeletonBones`, capped. -/
noncomputable def bonesRun (maxChars : ℕ) (acc : List SampleDesc) :
    List (ℕ × MeshData) → List SampleDesc
  | [] => acc
  | (mi, m) :: rest => bonesRun maxChars (meshBonesRun maxChars mi m acc) rest

/-- The mesh loop of `sampleSkeletonBones`, unbounded. -/
noncomputable def bonesEmit : List (ℕ × MeshData) → List SampleDesc
  | [] => []
  | (mi, m) :: rest => meshBonesEmit mi m ++ bonesEmit rest

/-- One full sampling run: `sampleVertices()` (which resets the array) followed
by `sampleSkeletonBones()`, as in `initializeASCIIPointCloud`. -/
noncomputable def sampleRun (maxChars density : ℕ) (meshes : List MeshData) :
    List SampleDesc :=
  bonesRun maxChars (meshesRun maxChars density [] meshes.enum) meshes.enum

/-- The theoretical unbounded sampling of the same run. -/
noncomputable def sampleEmit (density : ℕ) (meshes : List MeshData) :
    List SampleDesc :=
  meshesEmit density meshes.enum ++ bonesEmit meshes.enum

/-- A one-face mesh whose triangle is fully degenerate: all three vertices at
the origin, so the face area is zero. -/
noncomputable def exMeshC6 : MeshData where
  positions := [⟨0, 0, 0⟩, ⟨0, 0, 0⟩, ⟨0, 0, 0⟩]
  index := some [0, 1, 2]
  skinIndex := fun _ _ => 0
  skinWeight := fun _ _ => 0
  skeleton := ⟨[], []⟩
  bindMatrix := Mat4.id
  bindMatrixInverse := Mat4.id
  matrixWorld := Mat4.id

/-- A mesh with no geometry but a two-bone skeleton whose second bone is named
`"tail"` and parented to the first — the fill-gap sampling case. -/
noncomputable def exMeshC1 : MeshData where
  positions := []
  index := none
  skinIndex := fun _ _ => 0
  skinWeight := fun _ _ => 0
  skeleton := ⟨[⟨"root", none, Mat4.id⟩, ⟨"tail", some 0, Mat4.id⟩], [Mat4.id, Mat4.id]⟩
  bindMatrix := Mat4.id
  bindMatrixInverse := Mat4.id
  matrixWorld := Mat4.id

/-- A concrete running chaos state for witnesses. -/
noncomputable def exChaosState : ChaosState where
  isRunning := true
  startTime := 0
  lastEventTime := 0
  fibIndex := 0
  entropy := 0.2
  cycleCount := 0

section Theorems

/-- An influence whose weight is zero, or whose bone index is out of the
skeleton's bounds, contributes nothing to the skinning accumulation. -/
theorem skinStep_skip (m : MeshData) (vi : ℕ) (vbind acc : Vec3) (i : Fin 4)
    (h : m.skinWeight vi i = 0 ∨ m.skeleton.bones.length ≤ m.skinIndex vi i) :
    skinStep m vi vbind acc i = acc := by
  rcases h with h | h
  · simp [skinStep, h]
  · by_cases hw : m.skinWeight vi i = 0
    · simp [skinStep, hw]
    · simp only [skinStep, if_neg hw]
      rw [if_neg (by omega)]

/-- **C7**: for any vertex whose four skin weights sum to zero,
`getSkinnedVertexPosition` returns exactly the rest-pose vertex transformed by
the mesh's world matrix; and (the embedding being a pure function of the mesh
state) a repeated call with an unchanged pose returns the same position. -/
theorem c7_zero_weight_rest_pose (m : MeshData) (vi : ℕ)
    (h : m.totalWeight vi = 0) :
    getSkinnedVertexPosition m vi = applyMatrix4 m.matrixWorld (m.getPos vi) ∧
    getSkinnedVertexPosition m vi = getSkinnedVertexPosition m vi := by
  refine ⟨?_, rfl⟩
  simp [getSkinnedVertexPosition, h]

/-- Witness for C7 at the concrete all-zero-weight mesh `exMeshC7`. -/
theorem c7_witness :
    exMeshC7.totalWeight 0 = 0 ∧
    getSkinnedVertexPosition exMeshC7 0
      = applyMatrix4 exMeshC7.matrixWorld (exMeshC7.getPos 0) := by
  have h : exMeshC7.totalWeight 0 = 0 := by
    norm_num [MeshData.totalWeight, exMeshC7]
  exact ⟨h, (c7_zero_weight_rest_pose exMeshC7 0 h).1⟩

/-- **C5 (amended)**: a bone influence whose index lies outside the skeleton's
bounds is skipped (contributes nothing to the accumulation); and for a vertex
with nonzero total skin weight all of whose influences are invalid, the
returned position is the mesh world matrix composed with the inverse bind
matrix applied to the *zero vector* (the accumulator never receives a
contribution) — not the rest-pose fallback of the zero-weight case. -/
theorem c5_invalid_influences_skipped (m : MeshData) (vi : ℕ)
    (hne : m.totalWeight vi ≠ 0)
    (hinv : ∀ i : Fin 4, m.skinWeight vi i ≠ 0 →
      m.skeleton.bones.length ≤ m.skinIndex vi i) :
    (∀ (vbind acc : Vec3) (i : Fin 4),
        m.skeleton.bones.length ≤ m.skinIndex vi i →
        skinStep m vi vbind acc i = acc) ∧
    getSkinnedVertexPosition m vi
      = applyMatrix4 m.matrixWorld (applyMatrix4 m.bindMatrixInverse Vec3.zero) := by
  constructor
  · intro vbind acc i hi
    exact skinStep_skip m vi vbind acc i (Or.inr hi)
  · have hs : ∀ (vbind acc : Vec3) (i : Fin 4), skinStep m vi vbind acc i = acc := by
      intro vbind acc i
      by_cases hw : m.skinWeight vi i = 0
      · exact skinStep_skip m vi vbind acc i (Or.inl hw)
      · exact skinStep_skip m vi vbind acc i (Or.inr (hinv i hw))
    simp [getSkinnedVertexPosition, hne, List.foldl, hs]

/-- Witness for C5 at the concrete mesh `exMeshC5` (one nonzero-weight
influence, bone index `5`, empty skeleton). -/
theorem c5_witness :
    exMeshC5.totalWeight 0 ≠ 0 ∧
    getSkinnedVertexPosition exMeshC5 0
      = applyMatrix4 exMeshC5.matrixWorld (applyMatrix4 exMeshC5.bindMatrixInverse Vec3.zero) := by
  have hne : exMeshC5.totalWeight 0 ≠ 0 := by
    norm_num [MeshData.totalWeight, exMeshC5]
  have hinv : ∀ i : Fin 4, exMeshC5.skinWeight 0 i ≠ 0 →
      exMeshC5.skeleton.bones.length ≤ exMeshC5.skinIndex 0 i := by
    intro i _
    simp [exMeshC5]
  exact ⟨hne, (c5_invalid_influences_skipped exMeshC5 0 hne hinv).2⟩

/-- Counterexample to C5 as stated: on `exMeshC5` (nonzero total weight, all
influences invalid) the skinning evaluator does *not* return the rest-pose
vertex transformed by the mesh world matrix — it returns the origin's image
instead. -/
theorem c5_counterexample :
    getSkinnedVertexPosition exMeshC5 0
      ≠ applyMatrix4 exMeshC5.matrixWorld (exMeshC5.getPos 0) := by
  have h1 : getSkinnedVertexPosition exMeshC5 0 = ⟨0, 0, 0⟩ := by
    have hne : exMeshC5.totalWeight 0 ≠ 0 := by
      norm_num [MeshData.totalWeight, exMeshC5]
    have hinv : ∀ i : Fin 4, exMeshC5.skinWeight 0 i ≠ 0 →
        exMeshC5.skeleton.bones.length ≤ exMeshC5.skinIndex 0 i := by
      intro i _
      simp [exMeshC5]
    rw [(c5_invalid_influences_skipped exMeshC5 0 hne hinv).2]
    norm_num [applyMatrix4, exMeshC5, Mat4.id, Vec3.zero]
  have h2 : applyMatrix4 exMeshC5.matrixWorld (exMeshC5.getPos 0) = ⟨1, 0, 0⟩ := by
    norm_num [applyMatrix4, exMeshC5, Mat4.id, MeshData.getPos]
  rw [h1, h2]
  intro h
  have := congrArg Vec3.x h
  norm_num at this

/-- Counterexample to C2 as stated: with wave and disperse both active, the
total displacement differs from the sum of the two isolated displacements,
because the wave branch reads the vertical coordinate already displaced by the
disperse branch (`sin 1 ≠ sin 0`). -/
theorem c2_counterexample :
    displacement (withActive exEnvC2 (pairFlags .wave .disperse)) 0 ⟨0, 0, 0⟩
      ≠ Vec3.add (displacement (withActive exEnvC2 (soloFlags .wave)) 0 ⟨0, 0, 0⟩)
                 (displacement (withActive exEnvC2 (soloFlags .disperse)) 0 ⟨0, 0, 0⟩) := by
  intro h
  have hx := congrArg Vec3.x h
  simp [displacement, applyEffects, withActive, pairFlags, soloFlags,
    ActiveFlags.set, ActiveFlags.allOff, ActiveFlags.anyOn, hoverBranch,
    disperseBranch, noiseBranch, waveBranch, spiralBranch, spiralFlowBranch,
    exEnvC2, Vec3.add, Vec3.sub] at hx
  norm_num [Real.sin_zero] at hx
  have hpos : 0 < Real.sin 1 :=
    Real.sin_pos_of_pos_of_lt_pi (by norm_num) (by linarith [Real.pi_gt_three])
  linarith [hx]

/-- **C2 (amended)**: displacement is additive for any two distinct effects
whose formulas do not read the current position — hover, noise, spiral and
disperse; the wave and spiralFlow branches read the already-displaced
position, so stacking them on other effects is not exactly additive. -/
theorem c2_additive_position_independent (env : EffectEnv) (idx : ℕ) (pos : Vec3)
    (e1 e2 : EffectName) (hne : e1 ≠ e2)
    (h1 : posIndependent e1) (h2 : posIndependent e2) :
    displacement (withActive env (pairFlags e1 e2)) idx pos
      = Vec3.add (displacement (withActive env (soloFlags e1)) idx pos)
                 (displacement (withActive env (soloFlags e2)) idx pos) := by
  cases e1 <;> cases e2 <;>
    first
      | exact absurd rfl hne
      | exact absurd rfl h1.1
      | exact absurd rfl h1.2
      | exact absurd rfl h2.1
      | exact absurd rfl h2.2
      | (rcases hd : env.disperseDirections idx with - | dir <;>
          · simp [displacement, applyEffects, withActive, pairFlags, soloFlags,
              ActiveFlags.set, ActiveFlags.allOff, ActiveFlags.anyOn, hoverBranch,
              disperseBranch, noiseBranch, waveBranch, spiralBranch, spiralFlowBranch, hd,
              Vec3.add, Vec3.sub]
            all_goals
              first
                | trivial
                | (and_intros <;> first | trivial | ring))

/-- Witness for the amended C2 at a concrete pair (hover, spiral) in the
concrete environment `exEnvC2`. -/
theorem c2_witness :
    (EffectName.hover ≠ EffectName.spiral) ∧
    posIndependent .hover ∧ posIndependent .spiral ∧
    displacement (withActive exEnvC2 (pairFlags .hover .spiral)) 3 ⟨1, 2, 3⟩
      = Vec3.add (displacement (withActive exEnvC2 (soloFlags .hover)) 3 ⟨1, 2, 3⟩)
                 (displacement (withActive exEnvC2 (soloFlags .spiral)) 3 ⟨1, 2, 3⟩) := by
  refine ⟨by simp, ⟨by simp, by simp⟩, ⟨by simp, by simp⟩, ?_⟩
  exact c2_additive_position_independent exEnvC2 3 ⟨1, 2, 3⟩ .hover .spiral
    (by simp) ⟨by simp, by simp⟩ ⟨by simp, by simp⟩

theorem fadeRate_pos : (0 : ℝ) < fadeRate := by norm_num [fadeRate]

theorem fadeRate_lt_one : fadeRate < 1 := by norm_num [fadeRate]

/-- Zero decay frames change nothing. -/
theorem decayIter_zero (p : Params) : decayIter 0 p = p := by
  simp [decayIter, EffectParamsRec.mapAll]

/-- One more decay frame on top of `n` equals `n + 1` decay frames. -/
theorem fadeDecay_decayIter (n : ℕ) (p : Params) :
    fadeDecay (decayIter n p) = decayIter (n + 1) p := by
  simp [fadeDecay, decayIter, EffectParamsRec.mapAll]
  and_intros <;> ring

/-- The state produced by `completeFade` is the rest state. -/
theorem atRest_completeFade (p : Params) : atRest (completeFade p) := by
  refine ⟨rfl, rfl, rfl, rfl, ?_, rfl, rfl, rfl, rfl⟩
  intro e
  cases e <;> rfl

/-- The fade step leaves the rest state fixed (the returning flag is down). -/
theorem fadeStep_of_atRest (q : Params) (h : atRest q) : fadeStep q = q := by
  have hret : q.isReturning = false := h.2.2.2.2.2.1
  simp [fadeStep, processMystiqueFade, hret]

/-- After `n` fade frames from a returning state, either the rest state has
been reached, or the state is exactly `n` uninterrupted decay frames. -/
theorem fade_iter_cases (p : Params) (h : p.isReturning = true) (n : ℕ) :
    atRest (fadeStep^[n] p) ∨ fadeStep^[n] p = decayIter n p := by
  induction n with
  | zero =>
    right
    simpa using (decayIter_zero p).symm
  | succ n ih =>
    rw [Function.iterate_succ_apply']
    rcases ih with hr | he
    · left
      rw [fadeStep_of_atRest _ hr]
      exact hr
    · rw [he]
      have hret : (decayIter n p).isReturning = true := h
      by_cases hf : allFaded (fadeDecay (decayIter n p))
      · left
        simp only [fadeStep, processMystiqueFade, hret]
        rw [if_neg (by simp), if_pos hf]
        exact atRest_completeFade _
      · right
        simp only [fadeStep, processMystiqueFade, hret]
        rw [if_neg (by simp), if_neg hf]
        exact fadeDecay_decayIter n p

/-- Geometric decay: from any starting value, after enough frames the decayed
value is below the fade threshold (and stays there). -/
theorem exists_fade_below (x : ℝ) :
    ∃ n, ∀ m, n ≤ m → fadeRate ^ m * x < fadeThreshold := by
  rcases le_or_lt x 0 with hx | hx
  · refine ⟨0, fun m _ => ?_⟩
    have h1 : fadeRate ^ m * x ≤ 0 :=
      mul_nonpos_of_nonneg_of_nonpos (le_of_lt (pow_pos fadeRate_pos m)) hx
    have h2 : (0 : ℝ) < fadeThreshold := by norm_num [fadeThreshold]
    linarith
  · obtain ⟨n, hn⟩ :=
      exists_pow_lt_of_lt_one
        (div_pos (show (0 : ℝ) < fadeThreshold by norm_num [fadeThreshold]) hx)
        fadeRate_lt_one
    refine ⟨n, fun m hm => ?_⟩
    have h2 : fadeRate ^ m ≤ fadeRate ^ n :=
      pow_le_pow_of_le_one (le_of_lt fadeRate_pos) (le_of_lt fadeRate_lt_one) hm
    have h3 : fadeRate ^ m * x ≤ fadeRate ^ n * x :=
      mul_le_mul_of_nonneg_right h2 (le_of_lt hx)
    have h4 : fadeRate ^ n * x < fadeThreshold := (lt_div_iff₀ hx).mp hn
    linarith

/-- **C4**: while returning, every fade frame multiplies the global intensity,
every per-effect intensity, `disperseAmount` and `spiralFlowProgress` by the
fixed rate `0.992` (the frame is the decay, optionally followed by
`completeFade` in the terminal frame); and from a returning state with the
global intensity above the threshold, after a finite number of frames the
engine is at rest: all effects inactive, `disperseAmount` and
`spiralFlowProgress` zero, the global and every per-effect intensity reset to
`5.0`, the returning flag cleared, the focus cleared. -/
theorem c4_mystique_fade (p : Params)
    (h : p.isReturning = true) (hI : fadeThreshold < p.effectIntensity) :
    (∀ q : Params, q.isReturning = true →
      (fadeStep q = fadeDecay q ∨ fadeStep q = completeFade (fadeDecay q)) ∧
      (fadeDecay q).effectIntensity = 0.992 * q.effectIntensity ∧
      (∀ e, ((fadeDecay q).effectParams.get e).intensity
          = 0.992 * (q.effectParams.get e).intensity) ∧
      (fadeDecay q).disperseAmount = 0.992 * q.disperseAmount ∧
      (fadeDecay q).spiralFlowProgress = 0.992 * q.spiralFlowProgress) ∧
    ∃ n, atRest (fadeStep^[n] p) := by
  constructor
  · intro q hq
    refine ⟨?_, ?_, ?_, ?_, ?_⟩
    · by_cases hf : allFaded (fadeDecay q)
      · right
        simp [fadeStep, processMystiqueFade, hq, hf]
      · left
        simp [fadeStep, processMystiqueFade, hq, hf]
    · show q.effectIntensity * fadeRate = 0.992 * q.effectIntensity
      rw [fadeRate]
      ring
    · intro e
      cases e <;>
        · simp only [EffectParamsRec.get, fadeDecay, EffectParamsRec.mapAll]
          rw [fadeRate]
          ring
    · show q.disperseAmount * fadeRate = 0.992 * q.disperseAmount
      rw [fadeRate]
      ring
    · show q.spiralFlowProgress * fadeRate = 0.992 * q.spiralFlowProgress
      rw [fadeRate]
      ring
  · obtain ⟨n1, H1⟩ := exists_fade_below p.effectIntensity
    obtain ⟨n2, H2⟩ := exists_fade_below p.disperseAmount
    obtain ⟨n3, H3⟩ := exists_fade_below p.spiralFlowProgress
    have hle1 : n1 ≤ max n1 (max n2 n3) + 1 := le_trans (Nat.le_max_left _ _) (Nat.le_succ _)
    have hle2 : n2 ≤ max n1 (max n2 n3) + 1 :=
      le_trans (le_trans (Nat.le_max_left _ _) (Nat.le_max_right n1 _)) (Nat.le_succ _)
    have hle3 : n3 ≤ max n1 (max n2 n3) + 1 :=
      le_trans (le_trans (Nat.le_max_right _ _) (Nat.le_max_right n1 _)) (Nat.le_succ _)
    rcases fade_iter_cases p h (max n1 (max n2 n3)) with hr | he
    · exact ⟨max n1 (max n2 n3), hr⟩
    · refine ⟨max n1 (max n2 n3) + 1, ?_⟩
      rw [Function.iterate_succ_apply', he]
      have hret : (decayIter (max n1 (max n2 n3)) p).isReturning = true := h
      have hfall : allFaded (fadeDecay (decayIter (max n1 (max n2 n3)) p)) := by
        rw [fadeDecay_decayIter]
        exact ⟨H1 _ hle1, H2 _ hle2, H3 _ hle3⟩
      simp only [fadeStep, processMystiqueFade, hret]
      rw [if_neg (by simp), if_pos hfall]
      exact atRest_completeFade _

/-- Witness for C4 at the concrete returning state `exParamsC4`. -/
theorem c4_witness :
    exParamsC4.isReturning = true ∧ fadeThreshold < exParamsC4.effectIntensity ∧
    ∃ n, atRest (fadeStep^[n] exParamsC4) := by
  have h1 : exParamsC4.isReturning = true := rfl
  have h2 : fadeThreshold < exParamsC4.effectIntensity := by
    norm_num [fadeThreshold, exParamsC4]
  exact ⟨h1, h2, (c4_mystique_fade exParamsC4 h1 h2).2⟩

/-- Counterexample to C8 as stated: immediately after "stop all" on the
concrete state `exParamsC4` (whose transients are `1`), `disperseAmount` and
`spiralFlowProgress` are *not* zero — the handler never writes them. -/
theorem c8_counterexample :
    ¬ ((stopAll exParamsC4).disperseAmount = 0 ∧
       (stopAll exParamsC4).spiralFlowProgress = 0) := by
  intro h
  have h1 : (1 : ℝ) = 0 := h.1
  norm_num at h1

/-- **C8 (amended)**: "stop all" synchronously deactivates every effect,
clears the returning flag (bypassing the fade state machine), resets
`effectType`, zeroes the disperse *target*, stops the spiral flow and clears
the focus — but it leaves `disperseAmount` and `spiralFlowProgress` untouched;
those transients then decay through the per-frame animators (exponential
smoothing toward the zero target, and a `× 0.95` decay). -/
theorem c8_stop_all (p : Params) (delta : ℝ) :
    (∀ e, (stopAll p).activeEffects.get e = false) ∧
    (stopAll p).isReturning = false ∧
    (stopAll p).effectType = none ∧
    (stopAll p).disperseTarget = 0 ∧
    (stopAll p).spiralFlowActive = false ∧
    (stopAll p).focusedEffect = none ∧
    (stopAll p).disperseAmount = p.disperseAmount ∧
    (stopAll p).spiralFlowProgress = p.spiralFlowProgress ∧
    (animateTransients delta (stopAll p)).disperseAmount
      = p.disperseAmount + (0 - p.disperseAmount) * 0.02 * p.effectSpeed ∧
    (animateTransients delta (stopAll p)).spiralFlowProgress
      = p.spiralFlowProgress * 0.95 := by
  refine ⟨fun e => by cases e <;> rfl, rfl, rfl, rfl, rfl, rfl, rfl, rfl, ?_, ?_⟩
  · simp [animateTransients, stopAll]
  · simp [animateTransients, stopAll]

/-- `set` then `get` on the activation flags behaves like a pointwise update. -/
theorem ActiveFlags.get_set (a : ActiveFlags) (e f : EffectName) (b : Bool) :
    (a.set e b).get f = if f = e then b else a.get f := by
  cases e <;> cases f <;> simp [ActiveFlags.set, ActiveFlags.get]

/-- Activating a currently inactive effect raises the active count by one. -/
theorem countOn_set_true (a : ActiveFlags) (e : EffectName) (h : a.get e = false) :
    (a.set e true).countOn = a.countOn + 1 := by
  rcases a with ⟨a1, a2, a3, a4, a5, a6⟩
  cases e <;> revert h <;>
    [skip; skip; skip; skip; skip; skip] <;>
    (revert a1 a2 a3 a4 a5 a6; decide)

/-- Deactivating an effect never raises the active count. -/
theorem countOn_set_false_le (a : ActiveFlags) (e : EffectName) :
    (a.set e false).countOn ≤ a.countOn := by
  rcases a with ⟨a1, a2, a3, a4, a5, a6⟩
  cases e <;> (revert a1 a2 a3 a4 a5 a6; decide)

/-- `evolveOne` never touches the activation flags. -/
theorem evolveOne_flags (el en : ℝ) (i : ℕ) (e : EffectName) (p : Params) :
    (evolveOne el en i e p).activeEffects = p.activeEffects := by
  unfold evolveOne
  split <;> rfl

/-- `syncFocused` never touches the activation flags. -/
theorem syncFocused_flags (p : Params) :
    (syncFocused p).activeEffects = p.activeEffects := by
  unfold syncFocused
  split <;> first
    | rfl
    | (split <;> rfl)

/-- `evolveEffects` never touches the activation flags. -/
theorem evolveEffects_flags (el en : ℝ) (p : Params) :
    (evolveEffects el en p).activeEffects = p.activeEffects := by
  unfold evolveEffects
  rw [syncFocused_flags]
  rw [evolveOne_flags, evolveOne_flags, evolveOne_flags, evolveOne_flags,
    evolveOne_flags, evolveOne_flags]

/-- The activation flags after a Fibonacci event: either one inactive effect
was activated (probability above `0.4` and fewer than three active), or one
active effect was deactivated, or nothing changed. -/
theorem trigger_activeEffects (elapsed r1 r2 entropy : ℝ) (p : Params) :
    (triggerFibonacciEvent elapsed r1 r2 entropy p).activeEffects =
      (if quantumProbability (⌊r1 * 6⌋).toNat elapsed entropy > 0.4 ∧
          p.activeEffects.get (EFFECTS.getD (⌊r1 * 6⌋).toNat .hover) = false ∧
          p.activeEffects.countOn < MAX_ACTIVE_EFFECTS then
        p.activeEffects.set (EFFECTS.getD (⌊r1 * 6⌋).toNat .hover) true
      else if p.activeEffects.get (EFFECTS.getD (⌊r1 * 6⌋).toNat .hover) = true ∧
          (quantumProbability (⌊r1 * 6⌋).toNat elapsed entropy < 0.3 ∨
            MAX_ACTIVE_EFFECTS ≤ p.activeEffects.countOn) then
        p.activeEffects.set (EFFECTS.getD (⌊r1 * 6⌋).toNat .hover) false
      else p.activeEffects) := by
  unfold triggerFibonacciEvent
  simp only [apply_ite (fun q : Params => q.activeEffects), ite_self]

/-- A Fibonacci event preserves the ≤ 3 active-effect bound. -/
theorem trigger_count_le (elapsed r1 r2 entropy : ℝ) (p : Params)
    (h : p.activeEffects.countOn ≤ MAX_ACTIVE_EFFECTS) :
    (triggerFibonacciEvent elapsed r1 r2 entropy p).activeEffects.countOn
      ≤ MAX_ACTIVE_EFFECTS := by
  rw [trigger_activeEffects]
  split_ifs with h1 h2
  · rw [countOn_set_true _ _ h1.2.1]
    exact h1.2.2
  · exact le_trans (countOn_set_false_le _ _) h
  · exact h

/-- While running, a chaos tick writes `entropy = min 1 (0.2 + elapsed·0.02)`
and preserves `startTime` and `isRunning`. -/
theorem chaos_tick_first (now r1 r2 : ℝ) (st : ChaosState) (p : Params)
    (hrun : st.isRunning = true) :
    (processChaosMix now r1 r2 st p).1.entropy
        = min 1 (0.2 + (now - st.startTime) * 0.02) ∧
    (processChaosMix now r1 r2 st p).1.startTime = st.startTime ∧
    (processChaosMix now r1 r2 st p).1.isRunning = true := by
  unfold processChaosMix
  rw [hrun]
  refine ⟨?_, ?_, ?_⟩ <;>
    simp [apply_ite (fun q : ChaosState × Params => q.1),
      apply_ite (fun s : ChaosState => s.entropy),
      apply_ite (fun s : ChaosState => s.startTime),
      apply_ite (fun s : ChaosState => s.isRunning), ite_self, hrun]

/-- While running, a chaos tick preserves the ≤ 3 active-effect bound. -/
theorem chaos_tick_count (now r1 r2 : ℝ) (st : ChaosState) (p : Params)
    (hrun : st.isRunning = true)
    (h : p.activeEffects.countOn ≤ MAX_ACTIVE_EFFECTS) :
    (processChaosMix now r1 r2 st p).2.activeEffects.countOn
      ≤ MAX_ACTIVE_EFFECTS := by
  unfold processChaosMix
  rw [hrun]
  simp only [Bool.true_eq_false, if_false, ite_false, reduceIte]
  rw [evolveEffects_flags]
  rw [apply_ite (fun q : ChaosState × Params => q.2)]
  rw [apply_ite (fun q : Params => q.activeEffects.countOn)]
  split
  · exact trigger_count_le _ _ _ _ _ h
  · exact h

/-- **C9**: while the chaos driver is running, the entropy written by a tick
never exceeds `1.0` and is non-decreasing across successive ticks (it is
`min 1 (0.2 + elapsed·0.02)` of the preserved start time); and a tick
preserves the bound of at most `3` simultaneously active effects, so over a
run starting within the bound the count never exceeds `3` at the end of any
tick. -/
theorem c9_chaos_entropy_and_cap (st : ChaosState) (p : Params)
    (now now' r1 r2 r1' r2' : ℝ)
    (hrun : st.isRunning = true) (hnow : now ≤ now')
    (hcount : p.activeEffects.countOn ≤ MAX_ACTIVE_EFFECTS) :
    (processChaosMix now r1 r2 st p).1.entropy ≤ 1 ∧
    (processChaosMix now r1 r2 st p).1.entropy ≤
      (processChaosMix now' r1' r2' (processChaosMix now r1 r2 st p).1
        (processChaosMix now r1 r2 st p).2).1.entropy ∧
    (processChaosMix now r1 r2 st p).2.activeEffects.countOn ≤ MAX_ACTIVE_EFFECTS ∧
    (processChaosMix now' r1' r2' (processChaosMix now r1 r2 st p).1
      (processChaosMix now r1 r2 st p).2).2.activeEffects.countOn
        ≤ MAX_ACTIVE_EFFECTS := by
  obtain ⟨he1, hs1, hr1⟩ := chaos_tick_first now r1 r2 st p hrun
  obtain ⟨he2, hs2, hr2⟩ := chaos_tick_first now' r1' r2' _ _ hr1
  have hc1 := chaos_tick_count now r1 r2 st p hrun hcount
  have hc2 := chaos_tick_count now' r1' r2' _ _ hr1 hc1
  refine ⟨?_, ?_, hc1, hc2⟩
  · rw [he1]
    exact min_le_left _ _
  · rw [he1, he2, hs1]
    apply min_le_min le_rfl
    linarith

/-- Witness for C9: two concrete ticks at times `0 ≤ 1` from the concrete
running state. -/
theorem c9_witness :
    exChaosState.isRunning = true ∧
    exParamsC4.activeEffects.countOn ≤ MAX_ACTIVE_EFFECTS ∧
    (processChaosMix 0 0.5 0.5 exChaosState exParamsC4).1.entropy ≤ 1 ∧
    (processChaosMix 1 0.3 0.7 (processChaosMix 0 0.5 0.5 exChaosState exParamsC4).1
      (processChaosMix 0 0.5 0.5 exChaosState exParamsC4).2).2.activeEffects.countOn
      ≤ MAX_ACTIVE_EFFECTS := by
  have hrun : exChaosState.isRunning = true := rfl
  have hcount : exParamsC4.activeEffects.countOn ≤ MAX_ACTIVE_EFFECTS := by
    simp [exParamsC4, ActiveFlags.countOn, MAX_ACTIVE_EFFECTS]
  have h := c9_chaos_entropy_and_cap exChaosState exParamsC4 0 1 0.5 0.5 0.3 0.7
    hrun (by norm_num) hcount
  exact ⟨hrun, hcount, h.1, h.2.2.2⟩

/-- The quantum probability is a value in `[0, entropy]`. -/
theorem quantumProbability_bounds (i : ℕ) (t e : ℝ) (he0 : 0 ≤ e) :
    0 ≤ quantumProbability i t e ∧ quantumProbability i t e ≤ e := by
  have hs1 := Real.neg_one_le_sin (t * PHI + (i : ℝ) * GOLDEN_ANGLE * Real.pi / 180)
  have hs2 := Real.sin_le_one (t * PHI + (i : ℝ) * GOLDEN_ANGLE * Real.pi / 180)
  have hc1 := Real.neg_one_le_cos (t / PHI + (i : ℝ) * Real.pi / PHI)
  have hc2 := Real.cos_le_one (t / PHI + (i : ℝ) * Real.pi / PHI)
  unfold quantumProbability
  constructor
  · apply mul_nonneg _ he0
    linarith
  · have hk : ((Real.sin (t * PHI + (i : ℝ) * GOLDEN_ANGLE * Real.pi / 180) +
        Real.cos (t / PHI + (i : ℝ) * Real.pi / PHI)) / 2 + 1) / 2 ≤ 1 := by linarith
    calc ((Real.sin (t * PHI + (i : ℝ) * GOLDEN_ANGLE * Real.pi / 180) +
          Real.cos (t / PHI + (i : ℝ) * Real.pi / PHI)) / 2 + 1) / 2 * e
        ≤ 1 * e := mul_le_mul_of_nonneg_right hk he0
      _ = e := one_mul e

/-- **C10**: for entropy in `[0,1]` the quantum probability lies in
`[0, entropy] ⊆ [0,1]`; consequently, while entropy is at most the fixed
activation threshold `0.4`, a Fibonacci event can never newly activate an
effect. -/
theorem c10_quantum_probability (i : ℕ) (t e : ℝ) (he0 : 0 ≤ e) (he1 : e ≤ 1)
    (elapsed r1 r2 : ℝ) (p : Params) (eff : EffectName) :
    (0 ≤ quantumProbability i t e ∧ quantumProbability i t e ≤ e ∧
      quantumProbability i t e ≤ 1) ∧
    (e ≤ 0.4 →
      (triggerFibonacciEvent elapsed r1 r2 e p).activeEffects.get eff = true →
      p.activeEffects.get eff = true) := by
  obtain ⟨h0, hle⟩ := quantumProbability_bounds i t e he0
  refine ⟨⟨h0, hle, le_trans hle he1⟩, ?_⟩
  intro hthr hact
  rw [trigger_activeEffects] at hact
  split_ifs at hact with h1 h2
  · exfalso
    have hb := (quantumProbability_bounds (⌊r1 * 6⌋).toNat elapsed e he0).2
    have hp := h1.1
    linarith
  · rw [ActiveFlags.get_set] at hact
    by_cases heq : eff = EFFECTS.getD (⌊r1 * 6⌋).toNat .hover
    · rw [if_pos heq] at hact
      exact absurd hact (by simp)
    · rwa [if_neg heq] at hact
  · exact hact

/-- Witness for C10 at entropy `0.3` with concrete draws and state. -/
theorem c10_witness :
    (0 : ℝ) ≤ 0.3 ∧ (0.3 : ℝ) ≤ 1 ∧
    (0 ≤ quantumProbability 2 7 0.3 ∧ quantumProbability 2 7 0.3 ≤ 0.3 ∧
      quantumProbability 2 7 0.3 ≤ 1) ∧
    ((0.3 : ℝ) ≤ 0.4 →
      (triggerFibonacciEvent 7 0.2 0.6 0.3 exParamsC4).activeEffects.get .wave = true →
      exParamsC4.activeEffects.get .wave = true) := by
  have h := c10_quantum_probability 2 7 0.3 (by norm_num) (by norm_num) 7 0.2 0.6
    exParamsC4 .wave
  exact ⟨by norm_num, by norm_num, h.1, h.2⟩

theorem length_take_le (l : List SampleDesc) (n : ℕ) : (l.take n).length ≤ n := by
  simp [List.length_take]

/-- Truncating after an append absorbs an inner truncation to the same bound. -/
theorem take_append_take (A : List SampleDesc) (B : List SampleDesc) (n : ℕ) :
    (A.take n ++ B).take n = (A ++ B).take n := by
  induction A generalizing n with
  | nil => simp
  | cons a A ih =>
    cases n with
    | zero => simp
    | succ n => simp [List.take_succ_cons, ih]

/-- A guarded push from a within-cap accumulator is truncation. -/
theorem addSample_eq (maxChars : ℕ) (acc : List SampleDesc) (s : SampleDesc)
    (h : acc.length ≤ maxChars) :
    addSample maxChars acc s = (acc ++ [s]).take maxChars := by
  unfold addSample
  split
  · have hl : acc.length = maxChars := le_antisymm h (by assumption)
    rw [← hl]
    exact (List.take_left ..).symm
  · rw [List.take_of_length_le]
    simp only [List.length_append, List.length_cons, List.length_nil]
    omega

/-- A guarded push loop from a within-cap accumulator is truncation. -/
theorem pushLoop_eq (maxChars : ℕ) (xs : List SampleDesc) :
    ∀ acc, acc.length ≤ maxChars →
      pushLoop maxChars acc xs = (acc ++ xs).take maxChars := by
  induction xs with
  | nil =>
    intro acc h
    simp [pushLoop, List.take_of_length_le h]
  | cons s rest ih =>
    intro acc h
    unfold pushLoop
    split
    · have hl : acc.length = maxChars := le_antisymm h (by assumption)
      rw [← hl]
      exact (List.take_left ..).symm
    · have h2 : (acc ++ [s]).length ≤ maxChars := by
        simp only [List.length_append, List.length_cons, List.length_nil]
        omega
      rw [ih (acc ++ [s]) h2, List.append_assoc, List.singleton_append]

/-- The capped edge loop is the truncation of the unbounded edge emission, and
both thread the edge set identically. -/
theorem edgesRun_eq (maxChars mi : ℕ) (ts : List ℝ) (pairs : List (ℕ × ℕ)) :
    ∀ acc es, acc.length ≤ maxChars →
      (edgesRun maxChars mi ts acc es pairs).1
          = (acc ++ (edgesEmit mi ts es pairs).1).take maxChars ∧
      (edgesRun maxChars mi ts acc es pairs).2 = (edgesEmit mi ts es pairs).2 := by
  induction pairs with
  | nil =>
    intro acc es h
    simp [edgesRun, edgesEmit, List.take_of_length_le h]
  | cons p rest ih =>
    obtain ⟨a, b⟩ := p
    intro acc es h
    by_cases hmem : edgeKey a b ∈ es
    · simp only [edgesRun, edgesEmit, if_pos hmem]
      exact ih acc es h
    · simp only [edgesRun, edgesEmit, if_neg hmem]
      have hp := pushLoop_eq maxChars (ts.map (fun t => SampleDesc.edgePoint mi a b t)) acc h
      have h2 : (pushLoop maxChars acc (ts.map (fun t => SampleDesc.edgePoint mi a b t))).length
          ≤ maxChars := by
        rw [hp]
        exact length_take_le _ _
      obtain ⟨e1, e2⟩ := ih _ (edgeKey a b :: es) h2
      refine ⟨?_, e2⟩
      rw [e1, hp, take_append_take, List.append_assoc]

/-- The capped face loop is the truncation of the unbounded face emission. -/
theorem facesRun_eq (maxChars : ℕ) (m : MeshData) (idx : List ℕ) (mi : ℕ)
    (fs : List ℕ) :
    ∀ acc es, acc.length ≤ maxChars →
      facesRun maxChars m idx mi acc es fs
        = (acc ++ facesEmit m idx mi es fs).take maxChars := by
  induction fs with
  | nil =>
    intro acc es h
    simp [facesRun, facesEmit, List.take_of_length_le h]
  | cons f rest ih =>
    intro acc es h
    rw [facesRun, facesEmit]
    split
    · have hl : acc.length = maxChars := le_antisymm h (by assumption)
      rw [← hl]
      exact (List.take_left ..).symm
    · have e1 := addSample_eq maxChars acc
        (SampleDesc.faceCenter mi (faceV idx f 0) (faceV idx f 1) (faceV idx f 2)) h
      have h1 : (addSample maxChars acc
          (SampleDesc.faceCenter mi (faceV idx f 0) (faceV idx f 1) (faceV idx f 2))).length
          ≤ maxChars := by
        rw [e1]
        exact length_take_le _ _
      have e2 := pushLoop_eq maxChars
        ((faceBarys m idx f).map fun b =>
          SampleDesc.interior mi (faceV idx f 0) (faceV idx f 1) (faceV idx f 2) b.1 b.2.1 b.2.2)
        _ h1
      have h2 : (pushLoop maxChars
          (addSample maxChars acc
            (SampleDesc.faceCenter mi (faceV idx f 0) (faceV idx f 1) (faceV idx f 2)))
          ((faceBarys m idx f).map fun b =>
            SampleDesc.interior mi (faceV idx f 0) (faceV idx f 1) (faceV idx f 2) b.1 b.2.1 b.2.2)).length
          ≤ maxChars := by
        rw [e2, e1, take_append_take]
        exact length_take_le _ _
      obtain ⟨e3, e4⟩ := edgesRun_eq maxChars mi (faceEdgeTs m idx f)
        [(faceV idx f 0, faceV idx f 1), (faceV idx f 1, faceV idx f 2),
          (faceV idx f 2, faceV idx f 0)] _ es h2
      have h3 : ((edgesRun maxChars mi (faceEdgeTs m idx f)
          (pushLoop maxChars
            (addSample maxChars acc
              (SampleDesc.faceCenter mi (faceV idx f 0) (faceV idx f 1) (faceV idx f 2)))
            ((faceBarys m idx f).map fun b =>
              SampleDesc.interior mi (faceV idx f 0) (faceV idx f 1) (faceV idx f 2) b.1 b.2.1 b.2.2))
          es
          [(faceV idx f 0, faceV idx f 1), (faceV idx f 1, faceV idx f 2),
            (faceV idx f 2, faceV idx f 0)]).1).length ≤ maxChars := by
        rw [e3]
        exact length_take_le _ _
      rw [ih _ _ h3, e3, e4, e2, e1]
      simp only [take_append_take, List.append_assoc, List.cons_append,
        List.singleton_append, List.nil_append]

/-- One mesh's capped vertex-and-face pass is the truncation of its unbounded
emission. -/
theorem meshRun_eq (maxChars : ℕ) (m : MeshData) (mi density : ℕ)
    (acc : List SampleDesc) (h : acc.length ≤ maxChars) :
    meshRun maxChars m mi density acc = (acc ++ meshEmit m mi density).take maxChars := by
  unfold meshRun meshEmit
  have e1 := pushLoop_eq maxChars
    ((stepIdxs density m.positions.length).map (SampleDesc.vertex mi)) acc h
  have h1 : (pushLoop maxChars acc
      ((stepIdxs density m.positions.length).map (SampleDesc.vertex mi))).length
      ≤ maxChars := by
    rw [e1]
    exact length_take_le _ _
  cases hidx : m.index with
  | none =>
    simp only [e1, List.append_nil]
  | some idx =>
    simp only []
    rw [facesRun_eq maxChars m idx mi _ _ _ h1, e1, take_append_take,
      List.append_assoc]

/-- The capped mesh loop of `sampleVertices` is the truncation of the
unbounded emission. -/
theorem meshesRun_eq (maxChars density : ℕ) (lst : List (ℕ × MeshData)) :
    ∀ acc, acc.length ≤ maxChars →
      meshesRun maxChars density acc lst = (acc ++ meshesEmit density lst).take maxChars := by
  induction lst with
  | nil =>
    intro acc h
    simp [meshesRun, meshesEmit, List.take_of_length_le h]
  | cons p rest ih =>
    obtain ⟨mi, m⟩ := p
    intro acc h
    have e1 := meshRun_eq maxChars m mi density acc h
    have h1 : (meshRun maxChars m mi density acc).length ≤ maxChars := by
      rw [e1]
      exact length_take_le _ _
    simp only [meshesRun, meshesEmit]
    rw [ih _ h1, e1, take_append_take, List.append_assoc]

/-- The capped per-bone fold is the truncation of the per-bone flat emission. -/
theorem boneFold_eq (maxChars mi : ℕ) (bl : List (ℕ × Bone)) :
    ∀ acc, acc.length ≤ maxChars →
      bl.foldl (fun a p => pushLoop maxChars a (boneEmitOne mi p.1 p.2)) acc
        = (acc ++ bl.flatMap (fun p => boneEmitOne mi p.1 p.2)).take maxChars := by
  induction bl with
  | nil =>
    intro acc h
    simp [List.take_of_length_le h]
  | cons p rest ih =>
    intro acc h
    have e1 := pushLoop_eq maxChars (boneEmitOne mi p.1 p.2) acc h
    have h1 : (pushLoop maxChars acc (boneEmitOne mi p.1 p.2)).length ≤ maxChars := by
      rw [e1]
      exact length_take_le _ _
    simp only [List.foldl_cons, List.flatMap_cons]
    rw [ih _ h1, e1, take_append_take, List.append_assoc]

/-- One mesh's capped bone pass is the truncation of its unbounded bone
emission. -/
theorem meshBonesRun_eq (maxChars mi : ℕ) (m : MeshData) (acc : List SampleDesc)
    (h : acc.length ≤ maxChars) :
    meshBonesRun maxChars mi m acc = (acc ++ meshBonesEmit mi m).take maxChars := by
  unfold meshBonesRun meshBonesEmit
  exact boneFold_eq maxChars mi _ acc h

/-- The capped mesh loop of `sampleSkeletonBones` is the truncation of the
unbounded emission. -/
theorem bonesRun_eq (maxChars : ℕ) (lst : List (ℕ × MeshData)) :
    ∀ acc, acc.length ≤ maxChars →
      bonesRun maxChars acc lst = (acc ++ bonesEmit lst).take maxChars := by
  induction lst with
  | nil =>
    intro acc h
    simp [bonesRun, bonesEmit, List.take_of_length_le h]
  | cons p rest ih =>
    obtain ⟨mi, m⟩ := p
    intro acc h
    have e1 := meshBonesRun_eq maxChars mi m acc h
    have h1 : (meshBonesRun maxChars mi m acc).length ≤ maxChars := by
      rw [e1]
      exact length_take_le _ _
    simp only [bonesRun, bonesEmit]
    rw [ih _ h1, e1, take_append_take, List.append_assoc]

/-- **C3**: a full sampling run is exactly the `maxCharacters`-prefix of the
theoretical unbounded emission (vertices, then per-face content, then bone
points, in emission order).  Hence the emitted count never exceeds
`maxCharacters`, and it equals `maxCharacters` exactly whenever the unbounded
sampling would emit more than that. -/
theorem c3_sample_cap (maxChars density : ℕ) (meshes : List MeshData) :
    sampleRun maxChars density meshes = (sampleEmit density meshes).take maxChars ∧
    (sampleRun maxChars density meshes).length
        = min maxChars (sampleEmit density meshes).length ∧
    (sampleRun maxChars density meshes).length ≤ maxChars := by
  have h0 : (([] : List SampleDesc)).length ≤ maxChars := by simp
  have e1 := meshesRun_eq maxChars density meshes.enum [] h0
  have h1 : (meshesRun maxChars density [] meshes.enum).length ≤ maxChars := by
    rw [e1]
    exact length_take_le _ _
  have e2 := bonesRun_eq maxChars meshes.enum _ h1
  have emain : sampleRun maxChars density meshes
      = (sampleEmit density meshes).take maxChars := by
    unfold sampleRun sampleEmit
    rw [e2, e1, List.nil_append, take_append_take]
  refine ⟨emain, ?_, ?_⟩
  · rw [emain, List.length_take]
  · rw [emain]
    exact length_take_le _ _

/-- Face areas are nonnegative (half a Euclidean norm). -/
theorem faceArea_nonneg (m : MeshData) (idx : List ℕ) (f : ℕ) :
    0 ≤ faceArea m idx f := by
  simp only [faceArea, triangleArea, Vec3.len]
  positivity

/-- The mean face area is nonnegative. -/
theorem avgArea_nonneg (m : MeshData) (idx : List ℕ) : 0 ≤ avgArea m idx := by
  unfold avgArea
  apply div_nonneg
  · apply List.sum_nonneg
    intro x hx
    simp only [List.mem_map, List.mem_range] at hx
    obtain ⟨i, -, rfl⟩ := hx
    exact faceArea_nonneg m idx i
  · positivity

/-- **C6 (amended)**: a face of zero area is never classified "large" (the
threshold `2 × avgArea` is nonnegative), so it receives the base six interior
barycentric points and the base three edge offsets — it is *not* reduced to a
face-center-only contribution. -/
theorem c6_zero_area_face (m : MeshData) (idx : List ℕ) (f : ℕ)
    (h : faceArea m idx f = 0) :
    ¬ (avgArea m idx * 2 < faceArea m idx f) ∧
    faceBarys m idx f = baseBary ∧
    faceEdgeTs m idx f = [0.25, 0.5, 0.75] := by
  have havg := avgArea_nonneg m idx
  have hnot : ¬ (avgArea m idx * 2 < faceArea m idx f) := by
    rw [h]
    linarith
  exact ⟨hnot, by rw [faceBarys, if_neg hnot], by rw [faceEdgeTs, if_neg hnot]⟩

/-- Witness for the amended C6 at the concrete degenerate mesh `exMeshC6`. -/
theorem c6_witness :
    faceArea exMeshC6 [0, 1, 2] 0 = 0 ∧
    faceBarys exMeshC6 [0, 1, 2] 0 = baseBary ∧
    faceEdgeTs exMeshC6 [0, 1, 2] 0 = [0.25, 0.5, 0.75] := by
  have harea : faceArea exMeshC6 [0, 1, 2] 0 = 0 := by
    norm_num [faceArea, faceV, triangleArea, Vec3.len, Vec3.cross, Vec3.sub,
      MeshData.getPos, exMeshC6, Vec3.zero, Real.sqrt_zero]
  exact ⟨harea, (c6_zero_area_face exMeshC6 [0, 1, 2] 0 harea).2.1,
    (c6_zero_area_face exMeshC6 [0, 1, 2] 0 harea).2.2⟩

/-- Counterexample to C6 as stated: the sampling run on the degenerate mesh
emits interior barycentric samples for the zero-area face (here the first base
barycentric point), so the face does not contribute a face center only. -/
theorem c6_counterexample :
    SampleDesc.interior 0 0 1 2 0.5 0.25 0.25 ∈ sampleRun 200000 1 [exMeshC6] := by
  have harea : faceArea exMeshC6 [0, 1, 2] 0 = 0 := by
    norm_num [faceArea, faceV, triangleArea, Vec3.len, Vec3.cross, Vec3.sub,
      MeshData.getPos, exMeshC6, Vec3.zero, Real.sqrt_zero]
  have havg := avgArea_nonneg exMeshC6 [0, 1, 2]
  have hnot : ¬ (avgArea exMeshC6 [0, 1, 2] * 2 < faceArea exMeshC6 [0, 1, 2] 0) := by
    rw [harea]
    linarith
  have hB : faceBarys exMeshC6 [0, 1, 2] 0 = baseBary := by
    rw [faceBarys, if_neg hnot]
  have hT : faceEdgeTs exMeshC6 [0, 1, 2] 0 = [0.25, 0.5, 0.75] := by
    rw [faceEdgeTs, if_neg hnot]
  have hpos : exMeshC6.positions = [⟨0, 0, 0⟩, ⟨0, 0, 0⟩, ⟨0, 0, 0⟩] := rfl
  have hindex : exMeshC6.index = some [0, 1, 2] := rfl
  have hskel : exMeshC6.skeleton.bones = ([] : List Bone) := rfl
  simp [sampleRun, meshesRun, meshRun, bonesRun, meshBonesRun, stepIdxs, faceCountOf,
    facesRun, edgesRun, pushLoop, addSample, faceV, baseBary,
    edgeKey, boneEmitOne, hB, hT, hpos, hindex, hskel, List.enum]

/-- **C1** (code bug): `updateASCIIPositions` has no `bonePoint` branch — a
bone-point sample falls into the final vertex `else` branch, whose
`sample.vertexIndex` read yields `undefined`, so the resolved base position is
not well-defined (`none`; in the browser the buffer reads produce `NaN` and
the bone lookup `bones[undefined]` throws) instead of the bone-segment
interpolation the specification requires; and such samples really are emitted:
the sampler produces bone points for any skeleton with a tail bone. -/
theorem c1_bonepoint_not_interpolated :
    (∀ (meshes : List MeshData) (mi b pb : ℕ) (t : ℝ),
      resolveBasePosition meshes (SampleDesc.bonePoint mi b pb t) = none) ∧
    SampleDesc.bonePoint 0 1 0 0 ∈ sampleRun 200000 1 [exMeshC1] := by
  constructor
  · intro meshes mi b pb t
    rfl
  · have h1 : containsTail "root" = false := by decide
    have h2 : containsTail "tail" = true := by decide
    have hpos : exMeshC1.positions = ([] : List Vec3) := rfl
    have hindex : exMeshC1.index = none := rfl
    have hskel : exMeshC1.skeleton.bones
        = [⟨"root", none, Mat4.id⟩, ⟨"tail", some 0, Mat4.id⟩] := rfl
    simp [sampleRun, meshesRun, meshRun, bonesRun, meshBonesRun, stepIdxs,
      pushLoop, addSample, boneEmitOne, hpos, hindex, hskel, h1, h2, List.enum,
      List.range_succ]

end Theorems

end Nucat
